import Mathlib

/-!
Verification development for the PyMCP reflection-based service dispatcher
(`src/py/mcp_core.py`).

The embedding is shallow: Python JSON-like values become the inductive `JVal`;
the metaclass classifier `McpMeta.__new__` becomes `classify`; the request
dispatcher `McpServer._handle_request` becomes `handleRequest`, written in an
`Except PyErr` monad so that Python exceptions that escape the dispatcher are
visible as `.error` results while caught exceptions are ordinary values.
Python callables (the service-author handler methods) are modelled by `PyFn`:
their signature metadata mirrors `inspect.signature` / `typing.get_type_hints`
(the latter as an `Except`, since `get_type_hints` raises `NameError` on
unresolvable forward references), and their runtime behaviour is an abstract
function from keyword arguments to `Except String JVal` (`.error` = the
callable raised; awaitables are modelled as already awaited, since the
dispatcher awaits inline).  Numbers are modelled as integers; pydantic
validation is modelled by its documented v2 default semantics
(required-field presence, default filling, extra keys ignored) with type
coercion abstracted as the identity.
-/

namespace PyMCP

/-- A Python/JSON value as delivered to the dispatcher by the transport. -/
inductive JVal where
  | null
  | bool (b : Bool)
  | num (n : Int)
  | str (s : String)
  | arr (elems : List JVal)
  | obj (fields : List (String × JVal))
  deriving Repr

abbrev JObj := List (String × JVal)

/-- Python `dict.get(k)` for a dict with string keys (first binding wins;
a Python dict cannot contain duplicate keys, so on real inputs the list is
duplicate-free). -/
def lookupStr (kvs : JObj) (k : String) : Option JVal :=
  match kvs with
  | [] => none
  | (k', v) :: rest => if k' = k then some v else lookupStr rest k

/-- Python truthiness `bool(v)` on JSON-like values:
`None`, `False`, `0`, `""`, `[]` and `\x7b\x7d` are falsy. -/
def pyTruthy : JVal → Bool
  | .null => false
  | .bool b => b
  | .num n => n != 0
  | .str s => s != ""
  | .arr xs => !xs.isEmpty
  | .obj kvs => !kvs.isEmpty

/-- Python hashability of a JSON-like value: lists and dicts are unhashable. -/
def pyHashable : JVal → Bool
  | .arr _ => false
  | .obj _ => false
  | _ => true

/-- Escaping applied by `json.dumps` inside string literals
(abridged to the quote, backslash and newline cases). -/
def jEscapeCh : List Char → List Char
  | [] => []
  | c :: cs =>
    (if c = '"' then ['\\', '"'] else if c = '\\' then ['\\', '\\']
     else if c = '\n' then ['\\', 'n'] else [c]) ++ jEscapeCh cs

def jEscape (s : String) : String := ⟨jEscapeCh s.toList⟩

mutual

/-- `json.dumps` with its default separators, as used by the dispatcher when
serialising handler results. -/
def dumpJson : JVal → String
  | .null => "null"
  | .bool true => "true"
  | .bool false => "false"
  | .num n => toString n
  | .str s => "\"" ++ jEscape s ++ "\""
  | .arr xs => "[" ++ dumpJsonList xs ++ "]"
  | .obj kvs => "\x7b" ++ dumpJsonObj kvs ++ "\x7d"

def dumpJsonList : List JVal → String
  | [] => ""
  | [x] => dumpJson x
  | x :: xs => dumpJson x ++ ", " ++ dumpJsonList xs

def dumpJsonObj : List (String × JVal) → String
  | [] => ""
  | [(k, v)] => "\"" ++ jEscape k ++ "\": " ++ dumpJson v
  | (k, v) :: kvs => "\"" ++ jEscape k ++ "\": " ++ dumpJson v ++ ", " ++ dumpJsonObj kvs

end

mutual

/-- Python `repr` on JSON-like values (strings quoted with `\x27`),
used through `pyStr` when the dispatcher interpolates a value into a message. -/
def pyRepr : JVal → String
  | .null => "None"
  | .bool true => "True"
  | .bool false => "False"
  | .num n => toString n
  | .str s => "\x27" ++ s ++ "\x27"
  | .arr xs => "[" ++ pyReprList xs ++ "]"
  | .obj kvs => "\x7b" ++ pyReprObj kvs ++ "\x7d"

def pyReprList : List JVal → String
  | [] => ""
  | [x] => pyRepr x
  | x :: xs => pyRepr x ++ ", " ++ pyReprList xs

def pyReprObj : List (String × JVal) → String
  | [] => ""
  | [(k, v)] => "\x27" ++ k ++ "\x27: " ++ pyRepr v
  | (k, v) :: kvs => "\x27" ++ k ++ "\x27: " ++ pyRepr v ++ ", " ++ pyReprObj kvs

end

/-- Python `str(v)`: identity on strings, `repr`-like elsewhere. -/
def pyStr : JVal → String
  | .str s => s
  | v => pyRepr v

/-- Python `str(v)` where `v` may be `None` coming from a failed `dict.get`,
as interpolated by f-strings in the dispatcher's error messages. -/
def pyStrOpt : Option JVal → String
  | none => "None"
  | some v => pyStr v

/-- A Python exception escaping a piece of code that does not catch it. -/
inductive PyErr where
  | attributeError (m : String)
  | typeError (m : String)
  | nameError (m : String)
  | indexError (m : String)
  deriving Repr, DecidableEq

/-- `value.get(k)` where `value` came from an untrusted request field and may
not be a dict: Python raises `AttributeError` on any non-dict value. -/
def pyGetAttrGet (v : JVal) (k : String) : Except PyErr (Option JVal) :=
  match v with
  | .obj kvs => .ok (lookupStr kvs k)
  | _ => .error (.attributeError ("object has no attribute \x27get\x27: " ++ k))

/-- `table.get(key)` for a string-keyed dict where `key` is an arbitrary
request-supplied value: unhashable keys (lists, dicts) raise `TypeError`,
hashable non-string keys simply miss. -/
def pyDictGet {α : Type} (entries : List (String × α)) (key : JVal) :
    Except PyErr (Option α) :=
  match key with
  | .arr _ => .error (.typeError "unhashable type")
  | .obj _ => .error (.typeError "unhashable type")
  | .str s =>
    .ok (match entries.find? (fun e => e.1 = s) with
         | some e => some e.2
         | none => none)
  | _ => .ok none

/-- Python `str.title()` after `str.replace`, used for resource display names:
each maximal alphabetic run starts uppercase, the rest lowercase. -/
def pyTitleAux : List Char → Bool → List Char
  | [], _ => []
  | c :: cs, prevAlpha =>
    (if c.isAlpha then (if prevAlpha then c.toLower else c.toUpper) else c)
      :: pyTitleAux cs c.isAlpha

def pyTitle (s : String) : String := ⟨pyTitleAux s.toList false⟩

/-- Strip `pre` from the front of `s`, character by character. -/
def dropPrefixCh : List Char → List Char → Option (List Char)
  | [], s => some s
  | _, [] => none
  | p :: ps, c :: cs => if c = p then dropPrefixCh ps cs else none

/-- Python `str.startswith(pre)`. -/
def strStartsWith (s pre : String) : Bool :=
  (dropPrefixCh pre.toList s.toList).isSome

/-- Python `str.strip()` whitespace characters. -/
def isPySpace (c : Char) : Bool :=
  c = ' ' || c = '\n' || c = '\t' || c = '\r'

def pyStrip (s : String) : String :=
  ⟨((s.toList.dropWhile isPySpace).reverse.dropWhile isPySpace).reverse⟩

/-- The first line of a string, as `str.splitlines()[0]` returns it for a
stripped non-empty string. -/
def firstLine (s : String) : String :=
  ⟨s.toList.takeWhile (fun c => c != '\n')⟩

/-- Python `str.replace(a, b)` for single-character patterns (the only use
in the classifier). -/
def strReplaceCh (s : String) (a b : Char) : String :=
  ⟨s.toList.map (fun c => if c = a then b else c)⟩

/-! ## Signature metadata and the schema deriver (`_build_param_model` and
friends, `mcp_core.py` lines 9–33) -/

/-- The resolved value of one type annotation, as returned by
`typing.get_type_hints`.  Only the distinctions the core inspects are kept:
`dict` (for the resource mime-type choice) and the scalar names used in
schema rendering; `any` is `typing.Any`, the absent-annotation default. -/
inductive PyType where
  | any
  | strT
  | intT
  | floatT
  | boolT
  | dictT
  deriving Repr, DecidableEq

/-- One parameter from `inspect.signature(fn).parameters` (in declaration
order, including `self` for an unbound method); `default = none` models
`inspect._empty`, i.e. a parameter without a default value. -/
structure SigParam where
  name : String
  default : Option JVal
  deriving Repr

/-- The embedding of one Python callable from a service-class namespace.
`params` and `doc` mirror `inspect.signature` and `inspect.getdoc`;
`hints` is the outcome of `typing.get_type_hints(fn)`, which raises
`NameError` (the `.error` case) when an annotation is an unresolvable forward
reference; `call` is the runtime behaviour of the bound method on keyword
arguments, `.error` meaning the call raised (including `TypeError` for
keyword arguments the signature cannot bind), with awaitables already
awaited. -/
structure PyFn where
  params : List SigParam
  hints : Except String (List (String × PyType))
  doc : Option String
  call : JObj → Except String JVal

def lookupType (hints : List (String × PyType)) (k : String) : Option PyType :=
  match hints with
  | [] => none
  | (k', v) :: rest => if k' = k then some v else lookupType rest k

/-- A field of a derived pydantic parameter model: required iff the source
parameter has no default (`(ann, ...)` versus `(ann, default)`). -/
structure PField where
  name : String
  type : PyType
  default : Option JVal
  deriving Repr

/-- `_build_param_model` (`mcp_core.py` 9–20): one field per non-`self`
parameter, annotation defaulting to `Any` when absent from the hints; `none`
when the callable has no non-`self` parameters.  `get_type_hints` is called
unguarded, so an unresolvable annotation propagates the `NameError`. -/
def buildParamModel (fn : PyFn) : Except PyErr (Option (List PField)) :=
  match fn.hints with
  | .error m => .error (.nameError m)
  | .ok hints =>
    let fields := (fn.params.filter fun p => p.name != "self").map fun p =>
      { name := p.name, type := (lookupType hints p.name).getD .any,
        default := p.default : PField }
    .ok (if fields.isEmpty then none else some fields)

/-- `_build_result_model` (`mcp_core.py` 23–28): the wrapped return type when
a `return` annotation exists, `none` otherwise; again `get_type_hints` is
unguarded. -/
def buildResultModel (fn : PyFn) : Except PyErr (Option PyType) :=
  match fn.hints with
  | .error m => .error (.nameError m)
  | .ok hints => .ok (lookupType hints "return")

/-- `_doc_summary` (`mcp_core.py` 31–33): first line of the stripped
docstring, `None` when `inspect.getdoc` yields nothing.  A non-empty but
whitespace-only docstring makes `doc.strip().splitlines()[0]` raise
`IndexError`, which the source does not catch. -/
def docSummary (doc : Option String) : Except PyErr (Option String) :=
  match doc with
  | none => .ok none
  | some d =>
    if d = "" then .ok none
    else if pyStrip d = "" then .error (.indexError "list index out of range")
    else .ok (some (firstLine (pyStrip d)))

/-! ## Descriptors and the capability classifier (`McpMeta.__new__`,
`mcp_core.py` lines 36–154) -/

/-- `_Tool`: the Action descriptor. -/
structure Tool where
  name : String
  paramsModel : Option (List PField)
  resultModel : Option PyType
  description : Option String
  fn : PyFn

/-- A resource URI template as built by the classifier: either a static
`res://slug`, or `res://slug/` followed by exactly one `\x7bparam\x7d`
placeholder (`mcp_core.py` 104–109). -/
inductive UriTemplate where
  | static (uri : String)
  | param (pre : String) (name : String)
  deriving Repr

/-- The URI template rendered back to the string stored in `_Resource.uri`. -/
def uriString : UriTemplate → String
  | .static s => s
  | .param pre n => pre ++ "\x7b" ++ n ++ "\x7d"

/-- `_Resource.matches_uri` (`mcp_core.py` 65–74).  The source compiles the
template to the anchored regex `^re.escape(static part)(?P<name>[^/]+)$` and
returns the group dict on a match.  This is its denotation: a static template
matches exactly itself (yielding no parameters); a parametric template
matches exactly the literal static part followed by a non-empty trailing
segment containing no `/` (yielding that segment under the parameter name) —
`re.escape` guarantees the static part is matched literally. -/
def matchesUri (t : UriTemplate) (uri : String) : Option (List (String × String)) :=
  match t with
  | .static s => if uri = s then some [] else none
  | .param pre n =>
    match dropPrefixCh pre.toList uri.toList with
    | none => none
    | some rest =>
      if rest ≠ [] ∧ '/' ∉ rest then some [(n, ⟨rest⟩)] else none

/-- `_Resource`: the ReadableResource descriptor. -/
structure Resource where
  uri : UriTemplate
  name : String
  description : String
  mimeType : String
  fn : PyFn

/-- `_Prompt`: the PromptTemplate descriptor; `arguments` holds the rendered
argument-descriptor objects. -/
structure Prompt where
  name : String
  description : String
  arguments : List JVal
  fn : PyFn

/-- The three class-level descriptor mappings set by the metaclass
(`__mcp_tools__`, `__mcp_resources__`, `__mcp_prompts__`).  Python dict
insertion is modelled by appending: within one class namespace the attribute
names are distinct identifiers, so the derived keys never collide and
insertion never overwrites. -/
structure Tables where
  tools : List (String × Tool)
  resources : List (String × Resource)
  prompts : List (String × Prompt)

/-- One entry of the class namespace `ns` iterated by `McpMeta.__new__`:
an attribute name, whether its value is callable, and (when callable) the
callable's metadata. -/
structure NsEntry where
  name : String
  isCallable : Bool
  fn : PyFn

/-- The three-way name-prefix classification applied by the
`if/elif/else` chain of `McpMeta.__new__` (lines 97, 125, 148). -/
inductive Category where
  | resourceCat
  | promptCat
  | actionCat
  deriving Repr, DecidableEq

def categoryOf (attr : String) : Category :=
  if strStartsWith attr "resource_" then .resourceCat
  else if strStartsWith attr "prompt_" then .promptCat
  else .actionCat

/-- `callable(val) and not attr.startswith("_")` (line 93, negated). -/
def isPublicCallable (e : NsEntry) : Bool :=
  e.isCallable && !(strStartsWith e.name "_")

/-- Construction of a `_Tool` (lines 36–42 via line 149). -/
def mkTool (attr : String) (fn : PyFn) : Except PyErr Tool :=
  match buildParamModel fn with
  | .error e => .error e
  | .ok pm =>
    match buildResultModel fn with
    | .error e => .error e
    | .ok rm =>
      match docSummary fn.doc with
      | .error e => .error e
      | .ok d =>
        .ok { name := attr, paramsModel := pm, resultModel := rm,
              description := d, fn := fn }

/-- The resource branch of the classifier (lines 97–122): strip the
`resource_` prefix, derive the URI template from the first non-`self`
parameter, infer the mime type from the (unguarded) return hint, and key the
descriptor by the rendered URI. -/
def mkResource (attr : String) (fn : PyFn) : Except PyErr (String × Resource) :=
  let slug := attr.drop 9
  let ps := fn.params.filter fun p => p.name != "self"
  let tmpl : UriTemplate :=
    match ps with
    | [] => .static ("res://" ++ slug)
    | p :: _ => .param ("res://" ++ slug ++ "/") p.name
  match fn.hints with
  | .error m => .error (.nameError m)
  | .ok hints =>
    let ret := (lookupType hints "return").getD .strT
    let mt := if ret = .dictT then "application/json" else "text/plain"
    match docSummary fn.doc with
    | .error e => .error e
    | .ok d =>
      .ok (uriString tmpl,
           { uri := tmpl, name := pyTitle (strReplaceCh slug '_' ' '),
             description := d.getD "", mimeType := mt, fn := fn })

/-- The prompt branch of the classifier (lines 125–145): strip the `prompt_`
prefix and derive one argument descriptor per non-`self` parameter, required
iff the parameter has no default.  No type hints are resolved on this path. -/
def mkPrompt (attr : String) (fn : PyFn) : Except PyErr (String × Prompt) :=
  let pname := attr.drop 7
  let arguments := (fn.params.filter fun p => p.name != "self").map fun p =>
    JVal.obj [("name", .str p.name),
              ("description", .str (strReplaceCh p.name '_' ' ' ++ " parameter")),
              ("required", .bool p.default.isNone)]
  match docSummary fn.doc with
  | .error e => .error e
  | .ok d =>
    .ok (pname, { name := pname, description := d.getD "",
                  arguments := arguments, fn := fn })

/-- One iteration of the classification loop of `McpMeta.__new__`
(lines 92–149). -/
def classifyStep (acc : Tables) (e : NsEntry) : Except PyErr Tables :=
  if !e.isCallable || strStartsWith e.name "_" then .ok acc
  else if strStartsWith e.name "resource_" then
    match mkResource e.name e.fn with
    | .error er => .error er
    | .ok kr => .ok { acc with resources := acc.resources ++ [kr] }
  else if strStartsWith e.name "prompt_" then
    match mkPrompt e.name e.fn with
    | .error er => .error er
    | .ok kp => .ok { acc with prompts := acc.prompts ++ [kp] }
  else
    match mkTool e.name e.fn with
    | .error er => .error er
    | .ok t => .ok { acc with tools := acc.tools ++ [(e.name, t)] }

def classifyAux : List NsEntry → Tables → Except PyErr Tables
  | [], acc => .ok acc
  | e :: rest, acc =>
    match classifyStep acc e with
    | .ok acc' => classifyAux rest acc'
    | .error er => .error er

/-- `McpMeta.__new__` (lines 85–154): classify every namespace entry in
order, producing the three descriptor mappings. -/
def classify (ns : List NsEntry) : Except PyErr Tables :=
  classifyAux ns { tools := [], resources := [], prompts := [] }

/-! ## The server, its session state and the request dispatcher
(`McpServer`, `mcp_core.py` lines 157–391) -/

/-- The single supported protocol version (`McpServer.__init__`, line 162). -/
def protocolVersion : String := "2025-06-18"

/-- `McpServer.boot` (lines 164–179) as far as session state is concerned:
`__init__` sets `_initialized = False`, then `boot` overwrites it with `True`
exactly when `reuse_initialized` is passed.  (The call to
`attach_pyodide_worker` is the excluded transport adapter.) -/
def bootInitialized (reuseInitialized : Bool) : Bool :=
  if reuseInitialized then true else false

/-- The dispatcher's view of one service instance: the class name, the three
class-level descriptor mappings, and the outcome of
`mcp_introspect.introspect_server` on it (which the dispatcher only ever runs
inside a `try`, so it is modelled as an opaque outcome). -/
structure Service where
  className : String
  tools : List (String × Tool)
  resources : List (String × Resource)
  prompts : List (String × Prompt)
  introspect : Except String JVal

/-- An incoming request object: the four keys `_handle_request` reads from
the parsed dict, each possibly absent. -/
structure Request where
  jsonrpc : Option JVal
  id : Option JVal
  method : Option JVal
  params : Option JVal

/-- The payload half of a response envelope: every response dict built by
`_handle_request` carries `"jsonrpc": "2.0"`, the echoed id, and exactly one
of a `result` value or an `error` object with a code and a message. -/
inductive RespBody where
  | result (v : JVal)
  | error (code : Int) (message : String)
  deriving Repr

structure Response where
  id : Option JVal
  body : RespBody
  deriving Repr

def errResp (rid : Option JVal) (code : Int) (msg : String) : Response :=
  { id := rid, body := .error code msg }

def okResp (rid : Option JVal) (v : JVal) : Response :=
  { id := rid, body := .result v }

/-- `req.get("jsonrpc") != "2.0"`, negated. -/
def isStrVal (v : Option JVal) (s : String) : Bool :=
  match v with
  | some (.str t) => t == s
  | _ => false

def isMethod (req : Request) (s : String) : Bool :=
  isStrVal req.method s

/-- `McpServer._server_info` (lines 186–190). -/
def serverInfo (svc : Service) : JVal :=
  .obj [("name", .str svc.className), ("version", .str "0.1.0")]

/-- `McpServer._capabilities` (lines 192–205): each of the three capability
keys is present exactly when the corresponding descriptor mapping is
non-empty; `experimental` is always present. -/
def capabilities (svc : Service) : JVal :=
  .obj ((if !svc.tools.isEmpty then
           [("tools", JVal.obj [("listChanged", .bool true)])] else [])
     ++ (if !svc.resources.isEmpty then
           [("resources", JVal.obj [("subscribe", .bool false),
                                    ("listChanged", .bool true)])] else [])
     ++ (if !svc.prompts.isEmpty then
           [("prompts", JVal.obj [("listChanged", .bool true)])] else [])
     ++ [("experimental", JVal.obj [("validation", .bool true)])])

/-- The `initialize` success result (lines 250–254). -/
def initializeResult (svc : Service) : JVal :=
  .obj [("protocolVersion", .str protocolVersion),
        ("capabilities", capabilities svc),
        ("serverInfo", serverInfo svc)]

/-- Whether the capabilities object announced by `initialize` carries key
`k`. -/
def hasCapability (svc : Service) (k : String) : Bool :=
  match capabilities svc with
  | .obj kvs => (lookupStr kvs k).isSome
  | _ => false

/-- Abbreviated rendering of `model_json_schema()` for a property type. -/
def typeSchema : PyType → JVal
  | .any => .obj []
  | .strT => .obj [("type", .str "string")]
  | .intT => .obj [("type", .str "integer")]
  | .floatT => .obj [("type", .str "number")]
  | .boolT => .obj [("type", .str "boolean")]
  | .dictT => .obj [("type", .str "object")]

/-- `_Tool.input_schema` (lines 44–45): the JSON schema of the derived
parameter model, `None` when there is no model. -/
def inputSchemaJson (toolName : String) : Option (List PField) → JVal
  | none => .null
  | some fields =>
    .obj [("properties", .obj (fields.map fun f => (f.name, typeSchema f.type))),
          ("required", .arr (((fields.filter fun f => f.default.isNone).map
                                fun f => JVal.str f.name))),
          ("title", .str (toolName ++ "Params")),
          ("type", .str "object")]

/-- `_Tool.output_schema` (lines 47–48). -/
def outputSchemaJson (toolName : String) : Option PyType → JVal
  | none => .null
  | some t =>
    .obj [("properties", .obj [("result", typeSchema t)]),
          ("required", .arr [JVal.str "result"]),
          ("title", .str (toolName ++ "Result")),
          ("type", .str "object")]

def optStrJ : Option String → JVal
  | none => .null
  | some s => .str s

/-- `McpServer._tools_list` (lines 207–214). -/
def toolsListResult (svc : Service) : JVal :=
  .obj [("tools", .arr (svc.tools.map fun nt =>
    JVal.obj [("name", .str nt.1),
              ("description", optStrJ nt.2.description),
              ("inputSchema", inputSchemaJson nt.2.name nt.2.paramsModel),
              ("outputSchema", outputSchemaJson nt.2.name nt.2.resultModel),
              ("version", .num 1)]))]

/-- `McpServer._resources_list` (lines 216–222). -/
def resourcesListResult (svc : Service) : JVal :=
  .obj [("resources", .arr (svc.resources.map fun kr =>
    JVal.obj [("uri", .str (uriString kr.2.uri)),
              ("name", .str kr.2.name),
              ("description", .str kr.2.description),
              ("mimeType", .str kr.2.mimeType)]))]

/-- `McpServer._prompts_list` (lines 224–229). -/
def promptsListResult (svc : Service) : JVal :=
  .obj [("prompts", .arr (svc.prompts.map fun kp =>
    JVal.obj [("name", .str kp.2.name),
              ("description", .str kp.2.description),
              ("arguments", .arr kp.2.arguments)]))]

/-- The `initialize` branch (lines 240–254): read `protocolVersion` out of
`params` (raising `AttributeError` when a present `params` is not a dict),
reject any value other than the exact supported version string with the
mismatch error, otherwise answer with capabilities and server info.  The
session state is not touched on either path. -/
def handleInitialize (svc : Service) (req : Request) : Except PyErr Response :=
  match pyGetAttrGet (req.params.getD (.obj [])) "protocolVersion" with
  | .error e => .error e
  | .ok cv =>
    if isStrVal cv protocolVersion then
      .ok (okResp req.id (initializeResult svc))
    else
      .ok (errResp req.id (-32602) ("Protocol version mismatch: " ++ pyStrOpt cv))

/-- The `server/introspect` branch (lines 262–269): the whole body runs in a
`try`, so an introspection failure becomes the `-32603` error envelope. -/
def handleIntrospect (svc : Service) (rid : Option JVal) : Response :=
  match svc.introspect with
  | .ok schema => okResp rid schema
  | .error e => errResp rid (-32603) ("Introspection error: " ++ e)

/-- The resource scan of `resources/read` (lines 290–319): the first
descriptor whose matcher accepts the URI is invoked (with the extracted
parameters as strings) inside a `try`; a raising handler yields the `-32603`
error envelope; a dict result is JSON-serialised, anything else goes through
`str`; no match at all yields the unknown-resource error. -/
def readLoop (rid : Option JVal) (uri : String) :
    List (String × Resource) → Response
  | [] => errResp rid (-32602) ("Unknown resource: " ++ uri)
  | (_, r) :: rest =>
    match matchesUri r.uri uri with
    | none => readLoop rid uri rest
    | some ps =>
      match r.fn.call (ps.map fun kv => (kv.1, JVal.str kv.2)) with
      | .error e => errResp rid (-32603) e
      | .ok content =>
        let text := match content with
          | .obj kvs => dumpJson (.obj kvs)
          | v => pyStr v
        okResp rid (.obj [("contents",
          .arr [.obj [("uri", .str uri),
                      ("mimeType", .str r.mimeType),
                      ("text", .str text)]])])

/-- The `resources/read` branch (lines 283–319): a falsy `uri` value is the
missing-parameter error; a truthy non-string `uri` reaches `re.match`, which
raises `TypeError` outside any `try`. -/
def handleResourcesRead (svc : Service) (req : Request) : Except PyErr Response :=
  match pyGetAttrGet (req.params.getD (.obj [])) "uri" with
  | .error e => .error e
  | .ok uriVal =>
    let uv := (uriVal.getD .null)
    if pyTruthy uv then
      match uv with
      | .str uri => .ok (readLoop req.id uri svc.resources)
      | _ => .error (.typeError "expected string or bytes-like object")
    else
      .ok (errResp req.id (-32602) "Missing uri parameter")

/-- The `prompts/get` branch (lines 325–345): look the prompt up by the
request-supplied name (an unhashable name raises `TypeError` outside any
`try`); a missing prompt is the unknown-prompt error; the handler call runs
in a `try` whose failures (including a non-mapping `arguments` value fed to
`**`) become the `-32603` error envelope; its raw return value is the
result. -/
def handlePromptsGet (svc : Service) (req : Request) : Except PyErr Response :=
  match pyGetAttrGet (req.params.getD (.obj [])) "name" with
  | .error e => .error e
  | .ok nameVal =>
    match pyGetAttrGet (req.params.getD (.obj [])) "arguments" with
    | .error e => .error e
    | .ok argsVal0 =>
      let argsVal := argsVal0.getD (.obj [])
      match pyDictGet svc.prompts (nameVal.getD .null) with
      | .error e => .error e
      | .ok none =>
        .ok (errResp req.id (-32602) ("Unknown prompt: " ++ pyStrOpt nameVal))
      | .ok (some p) =>
        match argsVal with
        | .obj kvs =>
          match p.fn.call kvs with
          | .error e => .ok (errResp req.id (-32603) e)
          | .ok result => .ok (okResp req.id result)
        | _ => .ok (errResp req.id (-32603) "argument after ** must be a mapping")

/-- Pydantic v2 default validation of supplied arguments against the derived
parameter model (`tool.params_model(**args).model_dump()`): each declared
field takes the supplied value when present, its default otherwise, and a
required field with no supplied value is a validation error; keys not
declared on the model are ignored (the v2 default `extra="ignore"`).  Type
coercion is abstracted as the identity and the first missing field is
reported (pydantic reports all of them; only the message differs). -/
def validateFields : List PField → JObj → Except String JObj
  | [], _ => .ok []
  | f :: fs, args =>
    match lookupStr args f.name with
    | some v =>
      (validateFields fs args).map (fun parsed => (f.name, v) :: parsed)
    | none =>
      match f.default with
      | some d =>
        (validateFields fs args).map (fun parsed => (f.name, d) :: parsed)
      | none => .error ("1 validation error: Field required: " ++ f.name)

def textContent (s : String) : JVal :=
  .obj [("type", .str "text"), ("text", .str s)]

def isErrorPayload (s : String) : JVal :=
  .obj [("content", .arr [textContent s]), ("isError", .bool true)]

/-- The `try` body of `tools/call` (lines 358–388): validate the arguments
against the parameter model (skipped entirely, ignoring the supplied
arguments, when there is none), invoke the handler on the validated fields,
and wrap the outcome in MCP content.  Every exception on this path —
validation failure, a non-mapping `arguments` value hitting `**`, or the
handler raising — is caught and becomes the `isError`-flagged *result*
payload, not an envelope-level error. -/
def toolsCallTry (tool : Tool) (argsVal : JVal) : RespBody :=
  let parsedE : Except String JObj :=
    match tool.paramsModel with
    | none => .ok []
    | some fields =>
      match argsVal with
      | .obj kvs => validateFields fields kvs
      | _ => .error "argument after ** must be a mapping"
  match parsedE with
  | .error e => .result (isErrorPayload e)
  | .ok parsed =>
    match tool.fn.call parsed with
    | .error e => .result (isErrorPayload e)
    | .ok res =>
      let text :=
        match tool.resultModel with
        | some _ => dumpJson res
        | none => match res with
                  | .str s => s
                  | v => dumpJson v
      .result (.obj [("content", .arr [textContent text])])

/-- The `tools/call` branch (lines 348–388): `params` and `arguments`
normalise falsy values to empty dicts via `or`; reading `name`/`arguments`
off a truthy non-dict `params` raises `AttributeError` and looking an
unhashable name up in the tool table raises `TypeError`, both outside the
`try`; an unknown tool is the `-32601` error envelope. -/
def handleToolsCall (svc : Service) (req : Request) : Except PyErr Response :=
  let p : JVal :=
    match req.params with
    | some v => if pyTruthy v then v else .obj []
    | none => .obj []
  match pyGetAttrGet p "name" with
  | .error e => .error e
  | .ok nameVal =>
    match pyGetAttrGet p "arguments" with
    | .error e => .error e
    | .ok argsVal0 =>
      let argsVal : JVal :=
        match argsVal0 with
        | some v => if pyTruthy v then v else .obj []
        | none => .obj []
      match pyDictGet svc.tools (nameVal.getD .null) with
      | .error e => .error e
      | .ok none =>
        .ok (errResp req.id (-32601) ("Unknown tool: " ++ pyStrOpt nameVal))
      | .ok (some tool) =>
        .ok { id := req.id, body := toolsCallTry tool argsVal }

/-- `McpServer._handle_request` (lines 231–391).  The result is the pair of
the session state after the call and the optional response object; a Python
exception escaping the dispatcher (and hence hitting the transport) is the
`.error` case.  The branch order and conditions mirror the source: envelope
check, `initialize`, the `initialized` notification (the only state write),
`server/introspect`, the initialization gate, then the six capability
methods, then the unknown-method error. -/
def handleRequest (svc : Service) (st : Bool) (req : Request) :
    Except PyErr (Bool × Option Response) :=
  if !(isStrVal req.jsonrpc "2.0") then
    .ok (st, some (errResp req.id (-32600) "Invalid JSON-RPC"))
  else if isMethod req "initialize" then
    (handleInitialize svc req).map fun r => (st, some r)
  else if isMethod req "notifications/initialized" then
    .ok (true, none)
  else if isMethod req "server/introspect" then
    .ok (st, some (handleIntrospect svc req.id))
  else if !st then
    .ok (st, some (errResp req.id (-32002) "Server not initialized"))
  else if isMethod req "tools/list" then
    .ok (st, some (okResp req.id (toolsListResult svc)))
  else if isMethod req "resources/list" then
    .ok (st, some (okResp req.id (resourcesListResult svc)))
  else if isMethod req "resources/read" then
    (handleResourcesRead svc req).map fun r => (st, some r)
  else if isMethod req "prompts/list" then
    .ok (st, some (okResp req.id (promptsListResult svc)))
  else if isMethod req "prompts/get" then
    (handlePromptsGet svc req).map fun r => (st, some r)
  else if isMethod req "tools/call" then
    (handleToolsCall svc req).map fun r => (st, some r)
  else
    .ok (st, some (errResp req.id (-32601) ("Unknown method: " ++ pyStrOpt req.method)))

/-- The six post-initialization capability methods of the method table. -/
def postInitMethods : List String :=
  ["tools/list", "tools/call", "resources/list", "resources/read",
   "prompts/list", "prompts/get"]

/-- The request shapes on which the dispatcher is exception-free: `params`,
when present, is a mapping; a present `params.uri` for `resources/read` is a
string or falsy (a truthy non-string reaches `re.match`, which raises); a
present `params.name` for `tools/call`/`prompts/get` is hashable (a list or
dict key raises `TypeError` inside `dict.get`).  Outside these shapes a
Python exception escapes `_handle_request` to the transport. -/
def benignRequest (req : Request) : Prop :=
  match req.params with
  | none => True
  | some (.obj kvs) =>
    (isMethod req "resources/read" = true →
      (match lookupStr kvs "uri" with
       | some v => pyTruthy v = false ∨ ∃ s, v = .str s
       | none => True))
    ∧ ((isMethod req "tools/call" = true ∨ isMethod req "prompts/get" = true) →
      (match lookupStr kvs "name" with
       | some v => pyHashable v = true
       | none => True))
  | some _ => False

/-! ## Concrete fixtures used by witnesses and counterexamples -/

/-- The callable behind an `add(a: int, b: int) -> int` action. -/
def addFn : PyFn :=
  { params := [⟨"self", none⟩, ⟨"a", none⟩, ⟨"b", none⟩],
    hints := .ok [("a", .intT), ("b", .intT), ("return", .intT)],
    doc := some "Add two integers.",
    call := fun kvs =>
      match lookupStr kvs "a", lookupStr kvs "b" with
      | some (.num x), some (.num y) => .ok (.num (x + y))
      | _, _ => .error "TypeError: unsupported operand" }

def addTool : Tool :=
  { name := "add",
    paramsModel := some [⟨"a", .intT, none⟩, ⟨"b", .intT, none⟩],
    resultModel := some .intT,
    description := some "Add two integers.",
    fn := addFn }

/-- A `resource_doc(doc_id: str) -> str` method whose body raises. -/
def boomResFn : PyFn :=
  { params := [⟨"self", none⟩, ⟨"doc_id", none⟩],
    hints := .ok [("doc_id", .strT), ("return", .strT)],
    doc := none,
    call := fun _ => .error "boom" }

def docResource : Resource :=
  { uri := .param "res://doc/" "doc_id", name := "Doc", description := "",
    mimeType := "text/plain", fn := boomResFn }

/-- A `prompt_greet` method whose body raises. -/
def boomPromptFn : PyFn :=
  { params := [⟨"self", none⟩], hints := .ok [], doc := none,
    call := fun _ => .error "prompt boom" }

def greetPrompt : Prompt :=
  { name := "greet", description := "", arguments := [], fn := boomPromptFn }

/-- A small concrete service with one action, one raising resource and one
raising prompt. -/
def svcA : Service :=
  { className := "MyServer",
    tools := [("add", addTool)],
    resources := [("res://doc/\x7bdoc_id\x7d", docResource)],
    prompts := [("greet", greetPrompt)],
    introspect := .ok (.str "schema") }

/-- A well-enveloped request with the given method, id and params. -/
def mkReq (m : String) (rid : Int) (ps : Option JVal) : Request :=
  { jsonrpc := some (.str "2.0"), id := some (.num rid),
    method := some (.str m), params := ps }

/-- A class namespace mixing an action, a resource, a prompt, an
underscore-private method and a non-callable attribute. -/
def nsA : List NsEntry :=
  [ { name := "add", isCallable := true, fn := addFn },
    { name := "resource_doc", isCallable := true, fn := boomResFn },
    { name := "prompt_greet", isCallable := true, fn := boomPromptFn },
    { name := "_hidden", isCallable := true, fn := addFn },
    { name := "version", isCallable := false, fn := addFn } ]

/-- The descriptor tables `McpMeta.__new__` builds for `nsA`. -/
def tablesA : Tables :=
  { tools := [("add", addTool)],
    resources := [("res://doc/\x7bdoc_id\x7d", docResource)],
    prompts := [("greet", greetPrompt)] }

/-- A callable with a quoted forward reference to an undefined name:
`get_type_hints` raises `NameError` on it. -/
def badFn : PyFn :=
  { params := [⟨"self", none⟩, ⟨"x", none⟩],
    hints := .error "name \x27Widget\x27 is not defined",
    doc := none,
    call := fun _ => .ok .null }

/-- A callable with one unannotated parameter `x` (no hint at all). -/
def noHintFn : PyFn :=
  { params := [⟨"self", none⟩, ⟨"x", none⟩],
    hints := .ok [],
    doc := none,
    call := fun _ => .ok .null }

/-! ## General lemmas -/

theorem str_ne_empty_iff (s : String) : s ≠ "" ↔ s.data ≠ [] := by
  constructor
  · intro h hc; exact h (String.ext hc)
  · intro h hc; exact h (by rw [hc])

theorem dropPrefixCh_eq_some (p : List Char) :
    ∀ (s r : List Char), dropPrefixCh p s = some r ↔ s = p ++ r := by
  induction p with
  | nil => intro s r; simp [dropPrefixCh]
  | cons c cs ih =>
    intro s r
    cases s with
    | nil => simp [dropPrefixCh]
    | cons a as =>
      by_cases hac : a = c
      · subst hac; simp [dropPrefixCh, ih]
      · simp [dropPrefixCh, hac]

theorem isStrVal_true_iff {v : Option JVal} {s : String} :
    isStrVal v s = true ↔ v = some (.str s) := by
  cases v with
  | none => simp [isStrVal]
  | some w => cases w <;> simp [isStrVal]

theorem isMethod_of_method {req : Request} {m : String}
    (hm : req.method = some (.str m)) (s : String) :
    isMethod req s = (m == s) := by
  simp [isMethod, isStrVal, hm]

/-! ## Claim C9 — the resource URI matcher -/

/-- C9: for the parametric template `res://widget/\x7bid\x7d`, matching
`res://widget/42` extracts `id = "42"`; an empty trailing segment or a
different static part fails to match; and in general the matcher accepts a
candidate exactly when it is the static part followed by a non-empty
segment containing no `/`, extracting that segment. -/
theorem resource_uri_matcher_spec :
    matchesUri (.param "res://widget/" "id") "res://widget/42" = some [("id", "42")]
    ∧ matchesUri (.param "res://widget/" "id") "res://widget/" = none
    ∧ matchesUri (.param "res://widget/" "id") "res://other/42" = none
    ∧ ∀ (pre n uri seg : String),
        matchesUri (.param pre n) uri = some [(n, seg)] ↔
          (uri = pre ++ seg ∧ seg ≠ "" ∧ '/' ∉ seg.toList) := by
  refine ⟨by decide, by decide, by decide, ?_⟩
  intro pre n uri seg
  constructor
  · intro h
    cases hdp : dropPrefixCh pre.toList uri.toList with
    | none =>
      simp only [matchesUri, hdp] at h
      exact Option.noConfusion h
    | some rest =>
      simp only [matchesUri, hdp] at h
      by_cases hc : rest ≠ [] ∧ '/' ∉ rest
      · rw [if_pos hc] at h
        have hseg : (⟨rest⟩ : String) = seg := by
          have := Option.some.inj h
          have := (List.cons.injEq _ _ _ _).mp this
          exact (Prod.mk.injEq _ _ _ _).mp this.1 |>.2
        refine ⟨?_, ?_, ?_⟩
        · have hlist := (dropPrefixCh_eq_some _ _ _).mp hdp
          refine String.ext ?_
          rw [String.data_append]
          rw [← hseg]
          exact hlist
        · rw [← hseg]
          rw [str_ne_empty_iff]
          exact hc.1
        · rw [← hseg]
          exact hc.2
      · rw [if_neg hc] at h
        exact absurd h (by simp)
  · rintro ⟨huri, hne, hmem⟩
    have hdp : dropPrefixCh pre.toList uri.toList = some seg.toList := by
      refine (dropPrefixCh_eq_some _ _ _).mpr ?_
      rw [huri]
      exact String.data_append pre seg
    simp only [matchesUri, hdp]
    rw [if_pos ⟨(str_ne_empty_iff seg).mp hne, hmem⟩]
    rfl

/-- Witness for C9: the general characterisation applied to the concrete
resource template and candidate of the spec's second example scenario. -/
theorem resource_uri_matcher_spec_witness :
    matchesUri (.param "res://doc/" "doc_id") "res://doc/alpha" =
      some [("doc_id", "alpha")] :=
  (resource_uri_matcher_spec.2.2.2 "res://doc/" "doc_id" "res://doc/alpha" "alpha").mpr
    ⟨by decide, by decide, by decide⟩

/-! ## Dispatcher lemmas -/

theorem isMethod_true_iff {req : Request} {s : String} :
    isMethod req s = true ↔ req.method = some (.str s) :=
  isStrVal_true_iff

theorem isStrVal_some_false {v : JVal} {s : String} (h : v ≠ .str s) :
    isStrVal (some v) s = false := by
  cases v <;> simp_all [isStrVal]

theorem map_state {E : Except PyErr Response} {st st' : Bool} {r : Option Response}
    (h : (E.map fun x => (st, some x)) = .ok (st', r)) : st' = st := by
  cases E with
  | error e => simp [Except.map] at h
  | ok v =>
    simp only [Except.map, Except.ok.injEq, Prod.mk.injEq] at h
    exact h.1.symm

theorem handleInitialize_ok {svc : Service} {req : Request} {r : Response}
    (h : handleInitialize svc req = .ok r) :
    r.id = req.id ∧ (r.body = .result (initializeResult svc)
                     ∨ ∃ msg, r.body = .error (-32602) msg) := by
  cases hx : pyGetAttrGet (req.params.getD (.obj [])) "protocolVersion" with
  | error e =>
    simp only [handleInitialize, hx] at h
    exact Except.noConfusion h
  | ok cv =>
    simp only [handleInitialize, hx] at h
    split_ifs at h
    · injection h with h'
      subst h'
      exact ⟨rfl, Or.inl rfl⟩
    · injection h with h'
      subst h'
      exact ⟨rfl, Or.inr ⟨_, rfl⟩⟩

theorem handleIntrospect_body (svc : Service) (rid : Option JVal) :
    (handleIntrospect svc rid).id = rid
    ∧ ((∃ v, (handleIntrospect svc rid).body = .result v)
       ∨ ∃ msg, (handleIntrospect svc rid).body = .error (-32603) msg) := by
  cases hx : svc.introspect <;>
    simp [handleIntrospect, hx, okResp, errResp]

/-- Exhaustive enumeration of the twelve syntactic outcomes of
`_handle_request`, independent of which branch condition fired. -/
theorem handleRequest_shape (svc : Service) (st : Bool) (req : Request) :
    (isStrVal req.jsonrpc "2.0" = false
     ∧ handleRequest svc st req = .ok (st, some (errResp req.id (-32600) "Invalid JSON-RPC")))
    ∨ handleRequest svc st req = (handleInitialize svc req).map (fun r => (st, some r))
    ∨ (isStrVal req.jsonrpc "2.0" = true
       ∧ isMethod req "notifications/initialized" = true
       ∧ handleRequest svc st req = .ok (true, none))
    ∨ handleRequest svc st req = .ok (st, some (handleIntrospect svc req.id))
    ∨ (st = false
       ∧ handleRequest svc st req = .ok (st, some (errResp req.id (-32002) "Server not initialized")))
    ∨ handleRequest svc st req = .ok (st, some (okResp req.id (toolsListResult svc)))
    ∨ handleRequest svc st req = .ok (st, some (okResp req.id (resourcesListResult svc)))
    ∨ handleRequest svc st req = (handleResourcesRead svc req).map (fun r => (st, some r))
    ∨ handleRequest svc st req = .ok (st, some (okResp req.id (promptsListResult svc)))
    ∨ handleRequest svc st req = (handlePromptsGet svc req).map (fun r => (st, some r))
    ∨ handleRequest svc st req = (handleToolsCall svc req).map (fun r => (st, some r))
    ∨ handleRequest svc st req =
        .ok (st, some (errResp req.id (-32601) ("Unknown method: " ++ pyStrOpt req.method))) := by
  rw [handleRequest]
  by_cases c1 : (!isStrVal req.jsonrpc "2.0") = true
  · rw [if_pos c1]; exact Or.inl ⟨by simpa using c1, rfl⟩
  rw [if_neg c1]
  have c1' : isStrVal req.jsonrpc "2.0" = true := by
    rcases hx : isStrVal req.jsonrpc "2.0" with _ | _
    · exact absurd (by simp [hx]) c1
    · rfl
  by_cases c2 : isMethod req "initialize" = true
  · rw [if_pos c2]; exact Or.inr (Or.inl rfl)
  rw [if_neg c2]
  by_cases c3 : isMethod req "notifications/initialized" = true
  · rw [if_pos c3]; exact Or.inr (Or.inr (Or.inl ⟨c1', c3, rfl⟩))
  rw [if_neg c3]
  by_cases c4 : isMethod req "server/introspect" = true
  · rw [if_pos c4]; exact Or.inr (Or.inr (Or.inr (Or.inl rfl)))
  rw [if_neg c4]
  by_cases c5 : (!st) = true
  · rw [if_pos c5]; exact Or.inr (Or.inr (Or.inr (Or.inr (Or.inl ⟨by simpa using c5, rfl⟩))))
  rw [if_neg c5]
  by_cases c6 : isMethod req "tools/list" = true
  · rw [if_pos c6]
    exact Or.inr (Or.inr (Or.inr (Or.inr (Or.inr (Or.inl rfl)))))
  rw [if_neg c6]
  by_cases c7 : isMethod req "resources/list" = true
  · rw [if_pos c7]
    exact Or.inr (Or.inr (Or.inr (Or.inr (Or.inr (Or.inr (Or.inl rfl))))))
  rw [if_neg c7]
  by_cases c8 : isMethod req "resources/read" = true
  · rw [if_pos c8]
    exact Or.inr (Or.inr (Or.inr (Or.inr (Or.inr (Or.inr (Or.inr (Or.inl rfl)))))))
  rw [if_neg c8]
  by_cases c9 : isMethod req "prompts/list" = true
  · rw [if_pos c9]
    exact Or.inr (Or.inr (Or.inr (Or.inr (Or.inr (Or.inr (Or.inr (Or.inr (Or.inl rfl))))))))
  rw [if_neg c9]
  by_cases c10 : isMethod req "prompts/get" = true
  · rw [if_pos c10]
    exact Or.inr (Or.inr (Or.inr (Or.inr (Or.inr (Or.inr (Or.inr (Or.inr (Or.inr (Or.inl rfl)))))))))
  rw [if_neg c10]
  by_cases c11 : isMethod req "tools/call" = true
  · rw [if_pos c11]
    exact Or.inr (Or.inr (Or.inr (Or.inr (Or.inr (Or.inr (Or.inr (Or.inr (Or.inr (Or.inr (Or.inl rfl))))))))))
  rw [if_neg c11]
  exact Or.inr (Or.inr (Or.inr (Or.inr (Or.inr (Or.inr (Or.inr (Or.inr (Or.inr (Or.inr (Or.inr rfl))))))))))

/-! ## Claim C2 — the initialization gate and its exemptions -/

/-- C2: while the session is `UNINITIALIZED`, each of the six post-init
capability methods is answered with the structured `-32002`
"Server not initialized" error, for every service (hence without routing to
any handler) and without changing state; `initialize` and `server/introspect`
are exempt: their response is independent of the session state and is never
the not-initialized error. -/
theorem pre_init_gate :
    (∀ (svc : Service) (req : Request) (m : String),
      isStrVal req.jsonrpc "2.0" = true →
      req.method = some (.str m) →
      m ∈ postInitMethods →
      handleRequest svc false req =
        .ok (false, some (errResp req.id (-32002) "Server not initialized")))
    ∧ (∀ (svc : Service) (req : Request) (st st' : Bool),
        (isMethod req "initialize" = true ∨ isMethod req "server/introspect" = true) →
        ((handleRequest svc st req).map (fun p => p.2) =
           (handleRequest svc st' req).map (fun p => p.2)
         ∧ ∀ (b : Bool) (resp : Response) (msg : String),
             handleRequest svc st req = .ok (b, some resp) →
             resp.body ≠ .error (-32002) msg)) := by
  constructor
  · intro svc req m hj hm hpost
    simp only [postInitMethods, List.mem_cons, List.not_mem_nil, or_false] at hpost
    rcases hpost with rfl | rfl | rfl | rfl | rfl | rfl <;>
      simp [handleRequest, hj, isMethod_of_method hm]
  · intro svc req st st' hex
    by_cases hj : isStrVal req.jsonrpc "2.0" = true
    · rcases hex with hm | hm
      · have hmm := isMethod_true_iff.mp hm
        have hroute : ∀ st0 : Bool, handleRequest svc st0 req =
            (handleInitialize svc req).map (fun r => (st0, some r)) := by
          intro st0
          rw [handleRequest]
          simp [hj, isMethod_of_method hmm]
        constructor
        · rw [hroute st, hroute st']
          cases handleInitialize svc req <;> simp [Except.map]
        · intro b resp msg h
          rw [hroute st] at h
          cases hx : handleInitialize svc req with
          | error e => rw [hx] at h; simp [Except.map] at h
          | ok v =>
            rw [hx] at h
            simp only [Except.map, Except.ok.injEq, Prod.mk.injEq,
              Option.some.injEq] at h
            rcases handleInitialize_ok hx with ⟨_, hbody | ⟨m2, hbody⟩⟩ <;>
              rw [← h.2] <;> rw [hbody] <;> simp
      · have hmm := isMethod_true_iff.mp hm
        have hroute : ∀ st0 : Bool, handleRequest svc st0 req =
            .ok (st0, some (handleIntrospect svc req.id)) := by
          intro st0
          rw [handleRequest]
          simp [hj, isMethod_of_method hmm]
        constructor
        · rw [hroute st, hroute st']
          simp [Except.map]
        · intro b resp msg h
          rw [hroute st] at h
          simp only [Except.ok.injEq, Prod.mk.injEq, Option.some.injEq] at h
          rcases handleIntrospect_body svc req.id with ⟨_, ⟨v, hbody⟩ | ⟨m2, hbody⟩⟩ <;>
            rw [← h.2] <;> rw [hbody] <;> simp
    · have hj' : isStrVal req.jsonrpc "2.0" = false := by
        cases hx : isStrVal req.jsonrpc "2.0"
        · rfl
        · exact absurd hx hj
      have hroute : ∀ st0 : Bool, handleRequest svc st0 req =
          .ok (st0, some (errResp req.id (-32600) "Invalid JSON-RPC")) := by
        intro st0
        rw [handleRequest]
        simp [hj']
      constructor
      · rw [hroute st, hroute st']
        simp [Except.map]
      · intro b resp msg h
        rw [hroute st] at h
        simp only [Except.ok.injEq, Prod.mk.injEq, Option.some.injEq] at h
        rw [← h.2]
        simp [errResp]

/-- Witness for C2: the gate fires for a concrete `tools/call` before the
handshake, and `server/introspect` is answered identically in both states. -/
theorem pre_init_gate_witness :
    handleRequest svcA false (mkReq "tools/call" 5 none) =
      .ok (false, some (errResp (some (.num 5)) (-32002) "Server not initialized"))
    ∧ (handleRequest svcA false (mkReq "server/introspect" 6 none)).map (fun p => p.2) =
        (handleRequest svcA true (mkReq "server/introspect" 6 none)).map (fun p => p.2) :=
  ⟨pre_init_gate.1 svcA _ "tools/call" (by decide) rfl (by decide),
   (pre_init_gate.2 svcA _ false true (Or.inr (by decide))).1⟩

/-! ## Claim C3 — `initialize` version negotiation -/

/-- C3: an `initialize` request whose `protocolVersion` differs from the
supported version is answered with the `-32602` mismatch error envelope and
leaves the session state unchanged (so a later matching `initialize` still
succeeds); a matching `initialize` is answered with the negotiated version,
capabilities and server info, again without a state change; and a capability
key is present exactly when the corresponding descriptor mapping is
non-empty. -/
theorem initialize_version_negotiation
    (svc : Service) (st : Bool) (req : Request) (pobj : JObj)
    (hj : isStrVal req.jsonrpc "2.0" = true)
    (hm : req.method = some (.str "initialize"))
    (hp : req.params = some (.obj pobj)) :
    (∀ cv, lookupStr pobj "protocolVersion" = some cv → cv ≠ .str protocolVersion →
      handleRequest svc st req =
        .ok (st, some (errResp req.id (-32602)
          ("Protocol version mismatch: " ++ pyStr cv))))
    ∧ (lookupStr pobj "protocolVersion" = some (.str protocolVersion) →
      handleRequest svc st req =
        .ok (st, some (okResp req.id (initializeResult svc))))
    ∧ (hasCapability svc "tools" = !svc.tools.isEmpty)
    ∧ (hasCapability svc "resources" = !svc.resources.isEmpty)
    ∧ (hasCapability svc "prompts" = !svc.prompts.isEmpty) := by
  have hroute : handleRequest svc st req =
      (handleInitialize svc req).map (fun r => (st, some r)) := by
    rw [handleRequest]
    simp [hj, isMethod_of_method hm]
  refine ⟨?_, ?_, ?_, ?_, ?_⟩
  · intro cv hcv hne
    rw [hroute]
    simp only [handleInitialize, hp, Option.getD_some, pyGetAttrGet, hcv]
    rw [isStrVal_some_false hne]
    simp [Except.map, pyStrOpt]
  · intro hcv
    rw [hroute]
    simp only [handleInitialize, hp, Option.getD_some, pyGetAttrGet, hcv]
    simp [isStrVal, Except.map]
  · cases h1 : svc.tools.isEmpty <;> cases h2 : svc.resources.isEmpty <;>
      cases h3 : svc.prompts.isEmpty <;>
      simp [hasCapability, capabilities, h1, h2, h3, lookupStr]
  · cases h1 : svc.tools.isEmpty <;> cases h2 : svc.resources.isEmpty <;>
      cases h3 : svc.prompts.isEmpty <;>
      simp [hasCapability, capabilities, h1, h2, h3, lookupStr]
  · cases h1 : svc.tools.isEmpty <;> cases h2 : svc.resources.isEmpty <;>
      cases h3 : svc.prompts.isEmpty <;>
      simp [hasCapability, capabilities, h1, h2, h3, lookupStr]

/-- Witness for C3: a mismatching then a matching `initialize` on the
concrete service, both leaving the state `UNINITIALIZED`. -/
theorem initialize_version_negotiation_witness :
    handleRequest svcA false
        (mkReq "initialize" 1 (some (.obj [("protocolVersion", .str "1.0")]))) =
      .ok (false, some (errResp (some (.num 1)) (-32602)
        "Protocol version mismatch: 1.0"))
    ∧ handleRequest svcA false
        (mkReq "initialize" 2 (some (.obj [("protocolVersion", .str "2025-06-18")]))) =
      .ok (false, some (okResp (some (.num 2)) (initializeResult svcA))) :=
  ⟨(initialize_version_negotiation svcA false
      (mkReq "initialize" 1 (some (.obj [("protocolVersion", .str "1.0")])))
      [("protocolVersion", .str "1.0")] (by decide) rfl rfl).1
      (.str "1.0") rfl (by simp [protocolVersion]),
   (initialize_version_negotiation svcA false
      (mkReq "initialize" 2 (some (.obj [("protocolVersion", .str "2025-06-18")])))
      [("protocolVersion", .str "2025-06-18")] (by decide) rfl rfl).2.1 rfl⟩

/-! ## Claim C4 — the `initialized` notification and terminality -/

/-- C4: handling the `initialized` notification in any state transitions the
session to `INITIALIZED` and produces no response object at all; and no
request handled while `INITIALIZED` ever leaves the state anything but
`INITIALIZED`. -/
theorem initialized_notification_fire_and_forget :
    (∀ (svc : Service) (st : Bool) (req : Request),
      isStrVal req.jsonrpc "2.0" = true →
      req.method = some (.str "notifications/initialized") →
      handleRequest svc st req = .ok (true, none))
    ∧ (∀ (svc : Service) (req : Request) (st' : Bool) (r : Option Response),
        handleRequest svc true req = .ok (st', r) → st' = true) := by
  constructor
  · intro svc st req hj hm
    rw [handleRequest]
    simp [hj, isMethod_of_method hm]
  · intro svc req st' r h
    rcases handleRequest_shape svc true req with
      ⟨_, h1⟩ | h1 | ⟨_, _, h1⟩ | h1 | ⟨_, h1⟩ | h1 | h1 | h1 | h1 | h1 | h1 | h1 <;>
      rw [h1] at h <;>
      first
        | exact map_state h
        | (simp only [Except.ok.injEq, Prod.mk.injEq] at h; exact h.1.symm)

/-- Witness for C4: the notification flips the concrete server to
`INITIALIZED` with no response, and a concrete post-handshake request leaves
the state `INITIALIZED`. -/
theorem initialized_notification_fire_and_forget_witness :
    handleRequest svcA false (mkReq "notifications/initialized" 0 none) =
      .ok (true, none)
    ∧ True :=
  ⟨initialized_notification_fire_and_forget.1 svcA false _ (by decide) rfl,
   by
    have := initialized_notification_fire_and_forget.2 svcA
      (mkReq "tools/list" 3 none) true
      (some (okResp (some (.num 3)) (toolsListResult svcA))) rfl
    exact trivial⟩

/-! ## Outcome lemmas for the three invoking handlers -/

theorem readLoop_body (rid : Option JVal) (uri : String) (msg : String) :
    ∀ rs : List (String × Resource), (readLoop rid uri rs).body ≠ .error (-32002) msg := by
  intro rs
  induction rs with
  | nil => simp [readLoop, errResp]
  | cons hd tl ih =>
    obtain ⟨k, r⟩ := hd
    cases hmx : matchesUri r.uri uri with
    | none =>
      simp only [readLoop, hmx]
      exact ih
    | some ps =>
      cases hc : r.fn.call (ps.map fun kv => (kv.1, JVal.str kv.2)) with
      | error e => simp [readLoop, hmx, hc, errResp]
      | ok content => simp [readLoop, hmx, hc, okResp]

theorem handleResourcesRead_no_gate {svc : Service} {req : Request} {r : Response}
    (h : handleResourcesRead svc req = .ok r) (msg : String) :
    r.body ≠ .error (-32002) msg := by
  cases hx : pyGetAttrGet (req.params.getD (.obj [])) "uri" with
  | error e =>
    simp only [handleResourcesRead, hx] at h
    exact Except.noConfusion h
  | ok uriVal =>
    simp only [handleResourcesRead, hx] at h
    by_cases ht : pyTruthy (uriVal.getD .null) = true
    · rw [if_pos ht] at h
      cases huv : uriVal.getD .null <;> simp only [huv] at h <;>
        first
          | exact Except.noConfusion h
          | (injection h with h'; rw [← h']; exact readLoop_body req.id _ msg svc.resources)
    · rw [if_neg ht] at h
      injection h with h'
      rw [← h']
      simp [errResp]

theorem handlePromptsGet_no_gate {svc : Service} {req : Request} {r : Response}
    (h : handlePromptsGet svc req = .ok r) (msg : String) :
    r.body ≠ .error (-32002) msg := by
  cases hx : pyGetAttrGet (req.params.getD (.obj [])) "name" with
  | error e =>
    simp only [handlePromptsGet, hx] at h
    exact Except.noConfusion h
  | ok nameVal =>
    cases hy : pyGetAttrGet (req.params.getD (.obj [])) "arguments" with
    | error e =>
      simp only [handlePromptsGet, hx, hy] at h
      exact Except.noConfusion h
    | ok argsVal0 =>
      cases hz : pyDictGet svc.prompts (nameVal.getD .null) with
      | error e =>
        simp only [handlePromptsGet, hx, hy, hz] at h
        exact Except.noConfusion h
      | ok po =>
        cases po with
        | none =>
          simp only [handlePromptsGet, hx, hy, hz] at h
          injection h with h'
          rw [← h']
          simp [errResp]
        | some p =>
          simp only [handlePromptsGet, hx, hy, hz] at h
          cases hav : argsVal0.getD (.obj []) with
          | obj kvs =>
            simp only [hav] at h
            cases hc : p.fn.call kvs with
            | error e =>
              simp only [hc] at h
              injection h with h'
              rw [← h']
              simp [errResp]
            | ok result =>
              simp only [hc] at h
              injection h with h'
              rw [← h']
              simp [okResp]
          | null =>
            simp only [hav] at h
            injection h with h'
            rw [← h']
            simp [errResp]
          | bool b =>
            simp only [hav] at h
            injection h with h'
            rw [← h']
            simp [errResp]
          | num n =>
            simp only [hav] at h
            injection h with h'
            rw [← h']
            simp [errResp]
          | str s2 =>
            simp only [hav] at h
            injection h with h'
            rw [← h']
            simp [errResp]
          | arr xs =>
            simp only [hav] at h
            injection h with h'
            rw [← h']
            simp [errResp]

theorem toolsCallTry_no_gate (tool : Tool) (argsVal : JVal) :
    ∀ (c : Int) (m : String), toolsCallTry tool argsVal ≠ .error c m := by
  intro c m
  rw [toolsCallTry]
  cases hpm : tool.paramsModel with
  | none =>
    cases hc : tool.fn.call [] with
    | error e => simp [hc]
    | ok res => simp [hc]
  | some fields =>
    cases argsVal with
    | obj kvs =>
      cases hv : validateFields fields kvs with
      | error e => simp [hv]
      | ok parsed =>
        cases hc : tool.fn.call parsed with
        | error e => simp [hv, hc]
        | ok res => simp [hv, hc]
    | null => simp
    | bool b => simp
    | num n => simp
    | str s2 => simp
    | arr xs => simp

theorem handleToolsCall_no_gate {svc : Service} {req : Request} {r : Response}
    (h : handleToolsCall svc req = .ok r) (msg : String) :
    r.body ≠ .error (-32002) msg := by
  cases hx : pyGetAttrGet (match req.params with
      | some v => if pyTruthy v then v else JVal.obj []
      | none => JVal.obj []) "name" with
  | error e =>
    simp only [handleToolsCall, hx] at h
    exact Except.noConfusion h
  | ok nameVal =>
    cases hy : pyGetAttrGet (match req.params with
        | some v => if pyTruthy v then v else JVal.obj []
        | none => JVal.obj []) "arguments" with
    | error e =>
      simp only [handleToolsCall, hx, hy] at h
      exact Except.noConfusion h
    | ok argsVal0 =>
      cases hz : pyDictGet svc.tools (nameVal.getD .null) with
      | error e =>
        simp only [handleToolsCall, hx, hy, hz] at h
        exact Except.noConfusion h
      | ok topt =>
        cases topt with
        | none =>
          simp only [handleToolsCall, hx, hy, hz] at h
          injection h with h'
          rw [← h']
          simp [errResp]
        | some tool =>
          simp only [handleToolsCall, hx, hy, hz] at h
          injection h with h'
          rw [← h']
          exact toolsCallTry_no_gate tool _ (-32002) msg

/-! ## Claim C10 — `boot(reuse_initialized=True)` bypasses the handshake -/

/-- C10: `boot` with `reuse_initialized=True` yields an instance whose
session state is already `INITIALIZED`; on that instance the three list
methods answer immediately with their results, and no post-init capability
method is ever answered with the `-32002` not-initialized error — although no
`initialize` request or `initialized` notification was processed. -/
theorem boot_reuse_initialized_bypass :
    bootInitialized true = true
    ∧ (∀ (svc : Service) (req : Request),
        isStrVal req.jsonrpc "2.0" = true →
        req.method = some (.str "tools/list") →
        handleRequest svc (bootInitialized true) req =
          .ok (true, some (okResp req.id (toolsListResult svc))))
    ∧ (∀ (svc : Service) (req : Request),
        isStrVal req.jsonrpc "2.0" = true →
        req.method = some (.str "resources/list") →
        handleRequest svc (bootInitialized true) req =
          .ok (true, some (okResp req.id (resourcesListResult svc))))
    ∧ (∀ (svc : Service) (req : Request),
        isStrVal req.jsonrpc "2.0" = true →
        req.method = some (.str "prompts/list") →
        handleRequest svc (bootInitialized true) req =
          .ok (true, some (okResp req.id (promptsListResult svc))))
    ∧ (∀ (svc : Service) (req : Request) (m : String) (st' : Bool)
         (resp : Response) (msg : String),
        req.method = some (.str m) → m ∈ postInitMethods →
        handleRequest svc (bootInitialized true) req = .ok (st', some resp) →
        resp.body ≠ .error (-32002) msg) := by
  refine ⟨rfl, ?_, ?_, ?_, ?_⟩
  · intro svc req hj hm
    rw [handleRequest]
    simp [hj, isMethod_of_method hm, bootInitialized]
  · intro svc req hj hm
    rw [handleRequest]
    simp [hj, isMethod_of_method hm, bootInitialized]
  · intro svc req hj hm
    rw [handleRequest]
    simp [hj, isMethod_of_method hm, bootInitialized]
  · intro svc req m st' resp msg hm hpost h
    rcases handleRequest_shape svc (bootInitialized true) req with
      ⟨_, h1⟩ | h1 | ⟨_, hn, h1⟩ | h1 | ⟨hst, h1⟩ | h1 | h1 | h1 | h1 | h1 | h1 | h1
    · rw [h1] at h
      simp only [Except.ok.injEq, Prod.mk.injEq, Option.some.injEq] at h
      rw [← h.2]
      simp [errResp]
    · rw [h1] at h
      cases hx : handleInitialize svc req with
      | error e => rw [hx] at h; simp [Except.map] at h
      | ok v =>
        rw [hx] at h
        simp only [Except.map, Except.ok.injEq, Prod.mk.injEq, Option.some.injEq] at h
        rcases handleInitialize_ok hx with ⟨_, hbody | ⟨m2, hbody⟩⟩ <;>
          rw [← h.2, hbody] <;> simp
    · rw [h1] at h
      simp at h
    · rw [h1] at h
      simp only [Except.ok.injEq, Prod.mk.injEq, Option.some.injEq] at h
      rcases handleIntrospect_body svc req.id with ⟨_, ⟨v, hbody⟩ | ⟨m2, hbody⟩⟩ <;>
        rw [← h.2, hbody] <;> simp
    · exact absurd hst (by simp [bootInitialized])
    · rw [h1] at h
      simp only [Except.ok.injEq, Prod.mk.injEq, Option.some.injEq] at h
      rw [← h.2]
      simp [okResp]
    · rw [h1] at h
      simp only [Except.ok.injEq, Prod.mk.injEq, Option.some.injEq] at h
      rw [← h.2]
      simp [okResp]
    · rw [h1] at h
      cases hx : handleResourcesRead svc req with
      | error e => rw [hx] at h; simp [Except.map] at h
      | ok v =>
        rw [hx] at h
        simp only [Except.map, Except.ok.injEq, Prod.mk.injEq, Option.some.injEq] at h
        rw [← h.2]
        exact handleResourcesRead_no_gate hx msg
    · rw [h1] at h
      simp only [Except.ok.injEq, Prod.mk.injEq, Option.some.injEq] at h
      rw [← h.2]
      simp [okResp]
    · rw [h1] at h
      cases hx : handlePromptsGet svc req with
      | error e => rw [hx] at h; simp [Except.map] at h
      | ok v =>
        rw [hx] at h
        simp only [Except.map, Except.ok.injEq, Prod.mk.injEq, Option.some.injEq] at h
        rw [← h.2]
        exact handlePromptsGet_no_gate hx msg
    · rw [h1] at h
      cases hx : handleToolsCall svc req with
      | error e => rw [hx] at h; simp [Except.map] at h
      | ok v =>
        rw [hx] at h
        simp only [Except.map, Except.ok.injEq, Prod.mk.injEq, Option.some.injEq] at h
        rw [← h.2]
        exact handleToolsCall_no_gate hx msg
    · rw [h1] at h
      simp only [Except.ok.injEq, Prod.mk.injEq, Option.some.injEq] at h
      rw [← h.2]
      simp [errResp]

/-- Witness for C10: `tools/list` succeeds on a freshly booted
`reuse_initialized=True` instance, and such a response is not the
not-initialized error. -/
theorem boot_reuse_initialized_bypass_witness :
    handleRequest svcA (bootInitialized true) (mkReq "tools/list" 9 none) =
      .ok (true, some (okResp (some (.num 9)) (toolsListResult svcA)))
    ∧ (okResp (some (.num 9)) (toolsListResult svcA)).body ≠
        .error (-32002) "Server not initialized" :=
  ⟨boot_reuse_initialized_bypass.2.1 svcA _ (by decide) rfl,
   boot_reuse_initialized_bypass.2.2.2.2 svcA (mkReq "tools/list" 9 none)
     "tools/list" true (okResp (some (.num 9)) (toolsListResult svcA))
     "Server not initialized" rfl (by decide)
     (boot_reuse_initialized_bypass.2.1 svcA (mkReq "tools/list" 9 none)
       (by decide) rfl)⟩

/-! ## Claim C5 — how handler exceptions are reported -/

theorem toolsCallTry_handler_raises (tool : Tool) (args : JObj) (parsed : JObj)
    (e : String)
    (hv : (match tool.paramsModel with
           | none => Except.ok ([] : JObj)
           | some fields => validateFields fields args) = .ok parsed)
    (hc : tool.fn.call parsed = .error e) :
    toolsCallTry tool (.obj args) = .result (isErrorPayload e) := by
  rw [toolsCallTry]
  cases hpm : tool.paramsModel with
  | none =>
    simp only [hpm] at hv
    injection hv with hv'
    subst hv'
    simp [hc]
  | some fields =>
    simp only [hpm] at hv
    simp [hv, hc]

theorem toolsCall_routing (svc : Service) (req : Request) (tname : String)
    (args : JObj) (tool : Tool)
    (hj : isStrVal req.jsonrpc "2.0" = true)
    (hm : req.method = some (.str "tools/call"))
    (hp : req.params = some (.obj [("name", .str tname), ("arguments", .obj args)]))
    (hfind : pyDictGet svc.tools (.str tname) = .ok (some tool)) :
    handleRequest svc true req =
      .ok (true, some { id := req.id, body := toolsCallTry tool (.obj args) }) := by
  have hroute : handleRequest svc true req =
      (handleToolsCall svc req).map (fun r => (true, some r)) := by
    rw [handleRequest]
    simp [hj, isMethod_of_method hm]
  rw [hroute]
  cases args with
  | nil =>
    simp [handleToolsCall, hp, hfind, pyGetAttrGet, lookupStr, pyTruthy, Except.map]
  | cons hd tl =>
    simp [handleToolsCall, hp, hfind, pyGetAttrGet, lookupStr, pyTruthy, Except.map]

theorem resourcesRead_routing (svc : Service) (req : Request) (uri : String)
    (hj : isStrVal req.jsonrpc "2.0" = true)
    (hm : req.method = some (.str "resources/read"))
    (hp : req.params = some (.obj [("uri", .str uri)]))
    (hne : uri ≠ "") :
    handleRequest svc true req =
      .ok (true, some (readLoop req.id uri svc.resources)) := by
  have hroute : handleRequest svc true req =
      (handleResourcesRead svc req).map (fun r => (true, some r)) := by
    rw [handleRequest]
    simp [hj, isMethod_of_method hm]
  rw [hroute]
  simp [handleResourcesRead, hp, pyGetAttrGet, lookupStr, pyTruthy, hne, Except.map]

theorem promptsGet_routing (svc : Service) (req : Request) (pname : String)
    (args : JObj) (p : Prompt) (e : String)
    (hj : isStrVal req.jsonrpc "2.0" = true)
    (hm : req.method = some (.str "prompts/get"))
    (hp : req.params = some (.obj [("name", .str pname), ("arguments", .obj args)]))
    (hfind : pyDictGet svc.prompts (.str pname) = .ok (some p))
    (hc : p.fn.call args = .error e) :
    handleRequest svc true req = .ok (true, some (errResp req.id (-32603) e)) := by
  have hroute : handleRequest svc true req =
      (handlePromptsGet svc req).map (fun r => (true, some r)) := by
    rw [handleRequest]
    simp [hj, isMethod_of_method hm]
  rw [hroute]
  simp [handlePromptsGet, hp, hfind, hc, pyGetAttrGet, lookupStr, Except.map]

/-- C5 (amended): the dispatcher never crashes when a handler raises, but the
reporting differs by path — `tools/call` wraps the exception as an
`isError`-flagged *result* inside a successful envelope, while
`resources/read` and `prompts/get` report it as an envelope-level `-32603`
error. -/
theorem handler_failures_reported :
    (∀ (svc : Service) (req : Request) (tname : String) (args : JObj)
       (tool : Tool) (parsed : JObj) (e : String),
      isStrVal req.jsonrpc "2.0" = true →
      req.method = some (.str "tools/call") →
      req.params = some (.obj [("name", .str tname), ("arguments", .obj args)]) →
      pyDictGet svc.tools (.str tname) = .ok (some tool) →
      (match tool.paramsModel with
       | none => Except.ok ([] : JObj)
       | some fields => validateFields fields args) = .ok parsed →
      tool.fn.call parsed = .error e →
      handleRequest svc true req =
        .ok (true, some { id := req.id, body := .result (isErrorPayload e) }))
    ∧ (∀ (svc : Service) (req : Request) (uri : String),
        isStrVal req.jsonrpc "2.0" = true →
        req.method = some (.str "resources/read") →
        req.params = some (.obj [("uri", .str uri)]) →
        uri ≠ "" →
        handleRequest svc true req =
          .ok (true, some (readLoop req.id uri svc.resources)))
    ∧ (∀ (rid : Option JVal) (uri : String) (k : String) (r : Resource)
         (rest : List (String × Resource)) (ps : List (String × String)) (e : String),
        matchesUri r.uri uri = some ps →
        r.fn.call (ps.map fun kv => (kv.1, JVal.str kv.2)) = .error e →
        readLoop rid uri ((k, r) :: rest) = errResp rid (-32603) e)
    ∧ (∀ (svc : Service) (req : Request) (pname : String) (args : JObj)
         (p : Prompt) (e : String),
        isStrVal req.jsonrpc "2.0" = true →
        req.method = some (.str "prompts/get") →
        req.params = some (.obj [("name", .str pname), ("arguments", .obj args)]) →
        pyDictGet svc.prompts (.str pname) = .ok (some p) →
        p.fn.call args = .error e →
        handleRequest svc true req =
          .ok (true, some (errResp req.id (-32603) e))) := by
  refine ⟨?_, ?_, ?_, ?_⟩
  · intro svc req tname args tool parsed e hj hm hp hfind hv hc
    rw [toolsCall_routing svc req tname args tool hj hm hp hfind]
    rw [toolsCallTry_handler_raises tool args parsed e hv hc]
  · intro svc req uri hj hm hp hne
    exact resourcesRead_routing svc req uri hj hm hp hne
  · intro rid uri k r rest ps e hmx hc
    simp [readLoop, hmx, hc]
  · intro svc req pname args p e hj hm hp hfind hc
    exact promptsGet_routing svc req pname args p e hj hm hp hfind hc

/-- Counterexample to C5 as stated: on the concrete service a raising
resource handler is reported via `resources/read` as an envelope-level
`-32603` error — not as an `isError`-flagged result inside a successful
envelope. -/
theorem handler_failures_counterexample :
    handleRequest svcA true
        (mkReq "resources/read" 7 (some (.obj [("uri", .str "res://doc/x")]))) =
      .ok (true, some { id := some (.num 7), body := .error (-32603) "boom" }) := rfl

/-- Witness for the amended C5: all three paths exercised concretely — a
raising action handler produces the `isError` result, a raising resource and
a raising prompt handler produce `-32603` error envelopes. -/
theorem handler_failures_reported_witness :
    handleRequest svcA true
        (mkReq "tools/call" 11 (some (.obj
          [("name", .str "add"),
           ("arguments", .obj [("a", .str "x"), ("b", .num 1)])]))) =
      .ok (true, some ⟨some (.num 11),
        .result (isErrorPayload "TypeError: unsupported operand")⟩)
    ∧ handleRequest svcA true
        (mkReq "resources/read" 12 (some (.obj [("uri", .str "res://doc/x")]))) =
      .ok (true, some (readLoop (some (.num 12)) "res://doc/x" svcA.resources))
    ∧ readLoop (some (.num 12)) "res://doc/x" svcA.resources =
        errResp (some (.num 12)) (-32603) "boom"
    ∧ handleRequest svcA true
        (mkReq "prompts/get" 13 (some (.obj
          [("name", .str "greet"), ("arguments", .obj [])]))) =
      .ok (true, some (errResp (some (.num 13)) (-32603) "prompt boom")) :=
  ⟨handler_failures_reported.1 svcA _ "add"
     [("a", .str "x"), ("b", .num 1)] addTool
     [("a", .str "x"), ("b", .num 1)] "TypeError: unsupported operand"
     (by decide) rfl rfl rfl rfl rfl,
   handler_failures_reported.2.1 svcA _ "res://doc/x" (by decide) rfl rfl
     (by decide),
   handler_failures_reported.2.2.1 (some (.num 12)) "res://doc/x"
     "res://doc/\x7bdoc_id\x7d" docResource [] [("doc_id", "x")] "boom" rfl rfl,
   handler_failures_reported.2.2.2 svcA _ "greet" [] greetPrompt "prompt boom"
     (by decide) rfl rfl rfl rfl⟩

/-! ## Claim C7 — argument validation for `tools/call` -/

theorem validateFields_error_of_missing (fields : List PField) (args : JObj)
    (h : ∃ f ∈ fields, f.default = none ∧ lookupStr args f.name = none) :
    ∃ msg, validateFields fields args = .error msg := by
  induction fields with
  | nil =>
    rcases h with ⟨f, hf, _⟩
    exact absurd hf (List.not_mem_nil f)
  | cons f fs ih =>
    rcases h with ⟨g, hg, hreq, hmiss⟩
    rcases List.mem_cons.mp hg with rfl | hg'
    · rw [validateFields]
      rw [hmiss, hreq]
      exact ⟨_, rfl⟩
    · cases hl : lookupStr args f.name with
      | some v =>
        obtain ⟨msg, hmsg⟩ := ih ⟨g, hg', hreq, hmiss⟩
        refine ⟨msg, ?_⟩
        rw [validateFields, hl, hmsg]
        rfl
      | none =>
        cases hd : f.default with
        | some d =>
          obtain ⟨msg, hmsg⟩ := ih ⟨g, hg', hreq, hmiss⟩
          refine ⟨msg, ?_⟩
          rw [validateFields, hl, hd, hmsg]
          rfl
        | none =>
          rw [validateFields, hl, hd]
          exact ⟨_, rfl⟩

theorem validateFields_ok_of_covered (fields : List PField) (args : JObj)
    (h : ∀ f ∈ fields, f.default = none → (lookupStr args f.name).isSome) :
    ∃ parsed, validateFields fields args = .ok parsed
      ∧ parsed.map Prod.fst = fields.map PField.name := by
  induction fields with
  | nil => exact ⟨[], rfl, rfl⟩
  | cons f fs ih =>
    obtain ⟨parsed, hok, hkeys⟩ :=
      ih (fun g hg hreq => h g (List.mem_cons_of_mem f hg) hreq)
    cases hl : lookupStr args f.name with
    | some v =>
      refine ⟨(f.name, v) :: parsed, ?_, ?_⟩
      · rw [validateFields, hl, hok]
        rfl
      · simp [hkeys]
    | none =>
      cases hd : f.default with
      | some d =>
        refine ⟨(f.name, d) :: parsed, ?_, ?_⟩
        · rw [validateFields, hl, hd, hok]
          rfl
        · simp [hkeys]
      | none =>
        have hx := h f (List.mem_cons_self f fs) hd
        rw [hl] at hx
        simp at hx

theorem toolsCallTry_validation_fails (tool : Tool) (args : JObj)
    (fields : List PField) (msg : String)
    (hmodel : tool.paramsModel = some fields)
    (hv : validateFields fields args = .error msg) :
    toolsCallTry tool (.obj args) = .result (isErrorPayload msg) := by
  rw [toolsCallTry]
  simp [hmodel, hv]

theorem toolsCallTry_success (tool : Tool) (args : JObj) (fields : List PField)
    (parsed : JObj) (res : JVal)
    (hmodel : tool.paramsModel = some fields)
    (hok : validateFields fields args = .ok parsed)
    (hc : tool.fn.call parsed = .ok res) :
    toolsCallTry tool (.obj args) =
      .result (.obj [("content", .arr [textContent
        (match tool.resultModel with
         | some _ => dumpJson res
         | none => match res with
                   | .str s => s
                   | v => dumpJson v)])]) := by
  rw [toolsCallTry]
  simp only [hmodel, hok, hc]
  cases tool.resultModel <;> cases res <;> rfl

/-- C7 (amended): for an Action with a derived parameter model, a call
missing at least one required field is answered with a validation error
(an error-flagged result whose message comes from validation alone — the
handler is never invoked); a call supplying every required field, any subset
of the optional ones, and possibly extra fields succeeds in invoking the
handler on exactly the declared fields — extra fields are silently dropped
by the pydantic-v2 default `extra="ignore"` rather than rejected. -/
theorem tools_call_validation
    (svc : Service) (req : Request) (tname : String) (args : JObj)
    (tool : Tool) (fields : List PField)
    (hj : isStrVal req.jsonrpc "2.0" = true)
    (hm : req.method = some (.str "tools/call"))
    (hp : req.params = some (.obj [("name", .str tname), ("arguments", .obj args)]))
    (hfind : pyDictGet svc.tools (.str tname) = .ok (some tool))
    (hmodel : tool.paramsModel = some fields) :
    ((∃ f ∈ fields, f.default = none ∧ lookupStr args f.name = none) →
      ∃ msg, validateFields fields args = .error msg
        ∧ handleRequest svc true req =
            .ok (true, some ⟨req.id, .result (isErrorPayload msg)⟩))
    ∧ ((∀ f ∈ fields, f.default = none → (lookupStr args f.name).isSome) →
      ∃ parsed, validateFields fields args = .ok parsed
        ∧ parsed.map Prod.fst = fields.map PField.name
        ∧ (∀ e, tool.fn.call parsed = .error e →
            handleRequest svc true req =
              .ok (true, some ⟨req.id, .result (isErrorPayload e)⟩))
        ∧ (∀ res, tool.fn.call parsed = .ok res →
            ∃ text, handleRequest svc true req =
              .ok (true, some ⟨req.id,
                .result (.obj [("content", .arr [textContent text])])⟩))) := by
  constructor
  · intro hmiss
    obtain ⟨msg, hmsg⟩ := validateFields_error_of_missing fields args hmiss
    refine ⟨msg, hmsg, ?_⟩
    rw [toolsCall_routing svc req tname args tool hj hm hp hfind]
    rw [toolsCallTry_validation_fails tool args fields msg hmodel hmsg]
  · intro hcov
    obtain ⟨parsed, hok, hkeys⟩ := validateFields_ok_of_covered fields args hcov
    refine ⟨parsed, hok, hkeys, ?_, ?_⟩
    · intro e hc
      rw [toolsCall_routing svc req tname args tool hj hm hp hfind]
      rw [toolsCallTry_handler_raises tool args parsed e (by simp [hmodel, hok]) hc]
    · intro res hc
      refine ⟨(match tool.resultModel with
               | some _ => dumpJson res
               | none => match res with
                         | .str s => s
                         | v => dumpJson v), ?_⟩
      rw [toolsCall_routing svc req tname args tool hj hm hp hfind]
      rw [toolsCallTry_success tool args fields parsed res hmodel hok hc]

/-- Counterexample to C7 as stated: supplying the extra field `c` alongside
the two required fields of `add` does NOT yield a validation error — the
handler is invoked (pydantic v2 ignores extra fields by default) and the
call succeeds with result content `5`. -/
theorem tools_call_extra_fields_counterexample :
    handleRequest svcA true
        (mkReq "tools/call" 21 (some (.obj
          [("name", .str "add"),
           ("arguments", .obj [("a", .num 2), ("b", .num 3), ("c", .num 99)])]))) =
      .ok (true, some ⟨some (.num 21),
        .result (.obj [("content", .arr [textContent "5"])])⟩) := rfl

/-- Witness for the amended C7: a call to `add` missing the required `b`
yields the validation-error result, and a call with exactly the required set
invokes the handler. -/
theorem tools_call_validation_witness :
    (∃ msg, validateFields [⟨"a", PyType.intT, none⟩, ⟨"b", PyType.intT, none⟩]
        [("a", JVal.num 2)] = .error msg
      ∧ handleRequest svcA true
          (mkReq "tools/call" 22 (some (.obj
            [("name", .str "add"), ("arguments", .obj [("a", .num 2)])]))) =
        .ok (true, some ⟨some (.num 22), .result (isErrorPayload msg)⟩))
    ∧ (∃ parsed, validateFields [⟨"a", PyType.intT, none⟩, ⟨"b", PyType.intT, none⟩]
        [("a", JVal.num 2), ("b", JVal.num 3)] = .ok parsed
      ∧ parsed.map Prod.fst = ["a", "b"]
      ∧ (∀ e, addTool.fn.call parsed = .error e →
          handleRequest svcA true
            (mkReq "tools/call" 23 (some (.obj
              [("name", .str "add"),
               ("arguments", .obj [("a", .num 2), ("b", .num 3)])]))) =
            .ok (true, some ⟨some (.num 23), .result (isErrorPayload e)⟩))
      ∧ (∀ res, addTool.fn.call parsed = .ok res →
          ∃ text, handleRequest svcA true
            (mkReq "tools/call" 23 (some (.obj
              [("name", .str "add"),
               ("arguments", .obj [("a", .num 2), ("b", .num 3)])]))) =
            .ok (true, some ⟨some (.num 23),
              .result (.obj [("content", .arr [textContent text])])⟩))) :=
  ⟨(tools_call_validation svcA _ "add" [("a", .num 2)] addTool
      [⟨"a", .intT, none⟩, ⟨"b", .intT, none⟩]
      (by decide) rfl rfl rfl rfl).1
      ⟨⟨"b", .intT, none⟩, by simp, rfl, rfl⟩,
   (tools_call_validation svcA _ "add" [("a", .num 2), ("b", .num 3)] addTool
      [⟨"a", .intT, none⟩, ⟨"b", .intT, none⟩]
      (by decide) rfl rfl rfl rfl).2
      (by
        intro f hf hreq
        fin_cases hf <;> simp [lookupStr])⟩

/-! ## Claim C6 — dispatcher totality and envelope well-formedness -/

theorem readLoop_id (rid : Option JVal) (uri : String) :
    ∀ rs : List (String × Resource), (readLoop rid uri rs).id = rid := by
  intro rs
  induction rs with
  | nil => rfl
  | cons hd tl ih =>
    obtain ⟨k, r⟩ := hd
    cases hmx : matchesUri r.uri uri with
    | none =>
      simp only [readLoop, hmx]
      exact ih
    | some ps =>
      cases hc : r.fn.call (ps.map fun kv => (kv.1, JVal.str kv.2)) with
      | error e => simp [readLoop, hmx, hc, errResp]
      | ok content => simp [readLoop, hmx, hc, okResp]

theorem pyDictGet_ok_of_hashable {α : Type} (entries : List (String × α)) (v : JVal)
    (h : pyHashable v = true) : ∃ o, pyDictGet entries v = .ok o := by
  cases v with
  | arr xs => simp [pyHashable] at h
  | obj kvs => simp [pyHashable] at h
  | null => exact ⟨_, rfl⟩
  | bool b => exact ⟨_, rfl⟩
  | num n => exact ⟨_, rfl⟩
  | str s2 => exact ⟨_, rfl⟩

theorem handleInitialize_total (svc : Service) (req : Request) (pobj : JObj)
    (hpo : req.params.getD (.obj []) = .obj pobj) :
    ∃ r, handleInitialize svc req = .ok r ∧ r.id = req.id := by
  simp only [handleInitialize, hpo, pyGetAttrGet]
  by_cases hc : isStrVal (lookupStr pobj "protocolVersion") protocolVersion = true
  · rw [if_pos hc]
    exact ⟨_, rfl, rfl⟩
  · rw [if_neg hc]
    exact ⟨_, rfl, rfl⟩

theorem handleResourcesRead_total (svc : Service) (req : Request) (pobj : JObj)
    (hpo : req.params.getD (.obj []) = .obj pobj)
    (hu : match lookupStr pobj "uri" with
          | some v => pyTruthy v = false ∨ ∃ s, v = .str s
          | none => True) :
    ∃ r, handleResourcesRead svc req = .ok r ∧ r.id = req.id := by
  simp only [handleResourcesRead, hpo, pyGetAttrGet]
  cases hv : lookupStr pobj "uri" with
  | none =>
    simp only [Option.getD_none]
    rw [if_neg (by simp [pyTruthy])]
    exact ⟨_, rfl, rfl⟩
  | some v =>
    simp only [hv] at hu
    simp only [Option.getD_some]
    rcases hu with hf | ⟨s, rfl⟩
    · rw [if_neg (by simp [hf])]
      exact ⟨_, rfl, rfl⟩
    · by_cases hs : pyTruthy (.str s) = true
      · rw [if_pos hs]
        exact ⟨_, rfl, readLoop_id req.id s svc.resources⟩
      · rw [if_neg hs]
        exact ⟨_, rfl, rfl⟩

theorem handlePromptsGet_total (svc : Service) (req : Request) (pobj : JObj)
    (hpo : req.params.getD (.obj []) = .obj pobj)
    (hn : match lookupStr pobj "name" with
          | some v => pyHashable v = true
          | none => True) :
    ∃ r, handlePromptsGet svc req = .ok r ∧ r.id = req.id := by
  simp only [handlePromptsGet, hpo, pyGetAttrGet]
  have hhash : pyHashable ((lookupStr pobj "name").getD .null) = true := by
    cases hv : lookupStr pobj "name" with
    | none => rfl
    | some v =>
      simp only [hv] at hn
      simpa using hn
  obtain ⟨o, ho⟩ := pyDictGet_ok_of_hashable svc.prompts
    ((lookupStr pobj "name").getD .null) hhash
  cases o with
  | none =>
    simp only [ho]
    exact ⟨_, rfl, rfl⟩
  | some p =>
    simp only [ho]
    cases hav : (lookupStr pobj "arguments").getD (.obj []) with
    | obj kvs =>
      cases hc : p.fn.call kvs with
      | error e =>
        simp only [hav, hc]
        exact ⟨_, rfl, rfl⟩
      | ok result =>
        simp only [hav, hc]
        exact ⟨_, rfl, rfl⟩
    | null => simp only [hav]; exact ⟨_, rfl, rfl⟩
    | bool b => simp only [hav]; exact ⟨_, rfl, rfl⟩
    | num n => simp only [hav]; exact ⟨_, rfl, rfl⟩
    | str s2 => simp only [hav]; exact ⟨_, rfl, rfl⟩
    | arr xs => simp only [hav]; exact ⟨_, rfl, rfl⟩

theorem handleToolsCall_total (svc : Service) (req : Request) (pobj : JObj)
    (hpor : (match req.params with
             | some v => if pyTruthy v then v else JVal.obj []
             | none => JVal.obj []) = .obj pobj)
    (hn : match lookupStr pobj "name" with
          | some v => pyHashable v = true
          | none => True) :
    ∃ r, handleToolsCall svc req = .ok r ∧ r.id = req.id := by
  simp only [handleToolsCall, hpor, pyGetAttrGet]
  have hhash : pyHashable ((lookupStr pobj "name").getD .null) = true := by
    cases hv : lookupStr pobj "name" with
    | none => rfl
    | some v =>
      simp only [hv] at hn
      simpa using hn
  obtain ⟨o, ho⟩ := pyDictGet_ok_of_hashable svc.tools
    ((lookupStr pobj "name").getD .null) hhash
  cases o with
  | none =>
    simp only [ho]
    exact ⟨_, rfl, rfl⟩
  | some tool =>
    simp only [ho]
    exact ⟨_, rfl, rfl⟩

theorem benign_extract (req : Request) (hb : benignRequest req) :
    ∃ pobj, req.params.getD (.obj []) = .obj pobj
      ∧ (isMethod req "resources/read" = true →
          match lookupStr pobj "uri" with
          | some v => pyTruthy v = false ∨ ∃ s, v = .str s
          | none => True)
      ∧ ((isMethod req "tools/call" = true ∨ isMethod req "prompts/get" = true) →
          match lookupStr pobj "name" with
          | some v => pyHashable v = true
          | none => True)
      ∧ (match req.params with
         | some v => if pyTruthy v then v else JVal.obj []
         | none => JVal.obj []) = .obj pobj := by
  rcases hq : req.params with _ | v
  · exact ⟨[], rfl, fun _ => trivial, fun _ => trivial, rfl⟩
  · cases v with
    | obj kvs =>
      rw [benignRequest, hq] at hb
      refine ⟨kvs, rfl, hb.1, hb.2, ?_⟩
      cases kvs with
      | nil => rfl
      | cons hd tl => simp [pyTruthy]
    | null => rw [benignRequest, hq] at hb; exact absurd hb (by simp)
    | bool b => rw [benignRequest, hq] at hb; exact absurd hb (by simp)
    | num n => rw [benignRequest, hq] at hb; exact absurd hb (by simp)
    | str s2 => rw [benignRequest, hq] at hb; exact absurd hb (by simp)
    | arr xs => rw [benignRequest, hq] at hb; exact absurd hb (by simp)

theorem c6_fallback (svc : Service) (st : Bool) (req : Request)
    (hj : isStrVal req.jsonrpc "2.0" = true)
    (hall : ∀ x, isMethod req x = false) :
    ∃ (st' : Bool) (resp : Option Response),
      handleRequest svc st req = .ok (st', resp)
      ∧ (∀ r, resp = some r → r.id = req.id)
      ∧ (resp = none ↔
          (isStrVal req.jsonrpc "2.0" = true
           ∧ isMethod req "notifications/initialized" = true)) := by
  cases st with
  | false =>
    refine ⟨false, some (errResp req.id (-32002) "Server not initialized"), ?_, ?_, ?_⟩
    · rw [handleRequest]
      simp [hj, hall]
    · intro r hr
      injection hr with h'
      rw [← h']
      rfl
    · constructor
      · intro h
        exact Option.noConfusion h
      · rintro ⟨_, hnot⟩
        rw [hall] at hnot
        exact Bool.noConfusion hnot
  | true =>
    refine ⟨true, some (errResp req.id (-32601) ("Unknown method: " ++ pyStrOpt req.method)), ?_, ?_, ?_⟩
    · rw [handleRequest]
      simp [hj, hall]
    · intro r hr
      injection hr with h'
      rw [← h']
      rfl
    · constructor
      · intro h
        exact Option.noConfusion h
      · rintro ⟨_, hnot⟩
        rw [hall] at hnot
        exact Bool.noConfusion hnot

/-- C6 (amended): on every benign request — `params` absent or a mapping,
`resources/read` `uri` a string or falsy, `tools/call`/`prompts/get` `name`
hashable — the dispatcher totally returns a well-formed envelope echoing the
request id, and returns nothing exactly for the well-enveloped `initialized`
notification; no exception escapes on these shapes. -/
theorem dispatcher_total_and_well_formed
    (svc : Service) (st : Bool) (req : Request) (hb : benignRequest req) :
    ∃ (st' : Bool) (resp : Option Response),
      handleRequest svc st req = .ok (st', resp)
      ∧ (∀ r, resp = some r → r.id = req.id)
      ∧ (resp = none ↔
          (isStrVal req.jsonrpc "2.0" = true
           ∧ isMethod req "notifications/initialized" = true)) := by
  by_cases hj : isStrVal req.jsonrpc "2.0" = true
  case neg =>
    have hj' : isStrVal req.jsonrpc "2.0" = false := by
      cases hx : isStrVal req.jsonrpc "2.0"
      · rfl
      · exact absurd hx hj
    refine ⟨st, some (errResp req.id (-32600) "Invalid JSON-RPC"), ?_, ?_, ?_⟩
    · rw [handleRequest]
      simp [hj']
    · intro r hr
      injection hr with h'
      rw [← h']
      rfl
    · constructor
      · intro h
        exact Option.noConfusion h
      · rintro ⟨h1, _⟩
        rw [h1] at hj'
        exact Bool.noConfusion hj'
  case pos =>
    obtain ⟨pobj, hpo, hu, hnm, hpor⟩ := benign_extract req hb
    rcases hmv : req.method with _ | v
    · exact c6_fallback svc st req hj (fun x => by simp [isMethod, isStrVal, hmv])
    cases v with
    | null => exact c6_fallback svc st req hj (fun x => by simp [isMethod, isStrVal, hmv])
    | bool b => exact c6_fallback svc st req hj (fun x => by simp [isMethod, isStrVal, hmv])
    | num n => exact c6_fallback svc st req hj (fun x => by simp [isMethod, isStrVal, hmv])
    | arr xs => exact c6_fallback svc st req hj (fun x => by simp [isMethod, isStrVal, hmv])
    | obj kvs => exact c6_fallback svc st req hj (fun x => by simp [isMethod, isStrVal, hmv])
    | str m =>
      by_cases h1 : m = "initialize"
      · subst h1
        obtain ⟨r, hr, hid⟩ := handleInitialize_total svc req pobj hpo
        refine ⟨st, some r, ?_, ?_, ?_⟩
        · rw [handleRequest]
          simp [hj, isMethod_of_method hmv, hr, Except.map]
        · intro r2 hr2
          injection hr2 with h'
          rw [← h']
          exact hid
        · constructor
          · intro h
            exact Option.noConfusion h
          · rintro ⟨_, hnot⟩
            rw [isMethod_of_method hmv] at hnot
            exact absurd hnot (by decide)
      by_cases h2 : m = "notifications/initialized"
      · subst h2
        refine ⟨true, none, ?_, ?_, ?_⟩
        · rw [handleRequest]
          simp [hj, isMethod_of_method hmv]
        · intro r hr
          exact Option.noConfusion hr
        · simp [hj, isMethod_of_method hmv]
      by_cases h3 : m = "server/introspect"
      · subst h3
        refine ⟨st, some (handleIntrospect svc req.id), ?_, ?_, ?_⟩
        · rw [handleRequest]
          simp [hj, isMethod_of_method hmv]
        · intro r hr
          injection hr with h'
          rw [← h']
          exact (handleIntrospect_body svc req.id).1
        · constructor
          · intro h
            exact Option.noConfusion h
          · rintro ⟨_, hnot⟩
            rw [isMethod_of_method hmv] at hnot
            exact absurd hnot (by decide)
      cases st with
      | false =>
        refine ⟨false, some (errResp req.id (-32002) "Server not initialized"), ?_, ?_, ?_⟩
        · rw [handleRequest]
          simp [hj, isMethod_of_method hmv, h1, h2, h3]
        · intro r hr
          injection hr with h'
          rw [← h']
          rfl
        · constructor
          · intro h
            exact Option.noConfusion h
          · rintro ⟨_, hnot⟩
            rw [isMethod_of_method hmv] at hnot
            rw [beq_iff_eq] at hnot
            exact absurd hnot h2
      | true =>
        by_cases h4 : m = "tools/list"
        · subst h4
          refine ⟨true, some (okResp req.id (toolsListResult svc)), ?_, ?_, ?_⟩
          · rw [handleRequest]
            simp [hj, isMethod_of_method hmv]
          · intro r hr
            injection hr with h'
            rw [← h']
            rfl
          · constructor
            · intro h
              exact Option.noConfusion h
            · rintro ⟨_, hnot⟩
              rw [isMethod_of_method hmv] at hnot
              exact absurd hnot (by decide)
        by_cases h5 : m = "resources/list"
        · subst h5
          refine ⟨true, some (okResp req.id (resourcesListResult svc)), ?_, ?_, ?_⟩
          · rw [handleRequest]
            simp [hj, isMethod_of_method hmv]
          · intro r hr
            injection hr with h'
            rw [← h']
            rfl
          · constructor
            · intro h
              exact Option.noConfusion h
            · rintro ⟨_, hnot⟩
              rw [isMethod_of_method hmv] at hnot
              exact absurd hnot (by decide)
        by_cases h6 : m = "resources/read"
        · subst h6
          obtain ⟨r, hr, hid⟩ := handleResourcesRead_total svc req pobj hpo
            (hu (by rw [isMethod_of_method hmv]; decide))
          refine ⟨true, some r, ?_, ?_, ?_⟩
          · rw [handleRequest]
            simp [hj, isMethod_of_method hmv, hr, Except.map]
          · intro r2 hr2
            injection hr2 with h'
            rw [← h']
            exact hid
          · constructor
            · intro h
              exact Option.noConfusion h
            · rintro ⟨_, hnot⟩
              rw [isMethod_of_method hmv] at hnot
              exact absurd hnot (by decide)
        by_cases h7 : m = "prompts/list"
        · subst h7
          refine ⟨true, some (okResp req.id (promptsListResult svc)), ?_, ?_, ?_⟩
          · rw [handleRequest]
            simp [hj, isMethod_of_method hmv]
          · intro r hr
            injection hr with h'
            rw [← h']
            rfl
          · constructor
            · intro h
              exact Option.noConfusion h
            · rintro ⟨_, hnot⟩
              rw [isMethod_of_method hmv] at hnot
              exact absurd hnot (by decide)
        by_cases h8 : m = "prompts/get"
        · subst h8
          obtain ⟨r, hr, hid⟩ := handlePromptsGet_total svc req pobj hpo
            (hnm (Or.inr (by rw [isMethod_of_method hmv]; decide)))
          refine ⟨true, some r, ?_, ?_, ?_⟩
          · rw [handleRequest]
            simp [hj, isMethod_of_method hmv, hr, Except.map]
          · intro r2 hr2
            injection hr2 with h'
            rw [← h']
            exact hid
          · constructor
            · intro h
              exact Option.noConfusion h
            · rintro ⟨_, hnot⟩
              rw [isMethod_of_method hmv] at hnot
              exact absurd hnot (by decide)
        by_cases h9 : m = "tools/call"
        · subst h9
          obtain ⟨r, hr, hid⟩ := handleToolsCall_total svc req pobj hpor
            (hnm (Or.inl (by rw [isMethod_of_method hmv]; decide)))
          refine ⟨true, some r, ?_, ?_, ?_⟩
          · rw [handleRequest]
            simp [hj, isMethod_of_method hmv, hr, Except.map]
          · intro r2 hr2
            injection hr2 with h'
            rw [← h']
            exact hid
          · constructor
            · intro h
              exact Option.noConfusion h
            · rintro ⟨_, hnot⟩
              rw [isMethod_of_method hmv] at hnot
              exact absurd hnot (by decide)
        refine ⟨true, some (errResp req.id (-32601) ("Unknown method: " ++ pyStrOpt req.method)), ?_, ?_, ?_⟩
        · rw [handleRequest]
          simp [hj, isMethod_of_method hmv, h1, h2, h3, h4, h5, h6, h7, h8, h9]
        · intro r hr
          injection hr with h'
          rw [← h']
          rfl
        · constructor
          · intro h
            exact Option.noConfusion h
          · rintro ⟨_, hnot⟩
            rw [isMethod_of_method hmv] at hnot
            rw [beq_iff_eq] at hnot
            exact absurd hnot h2

/-- Counterexample to C6 as stated: a well-enveloped `initialize` request
whose `params` is `null` makes `params.get("protocolVersion")` raise
`AttributeError`, which escapes the dispatcher to the transport. -/
theorem dispatcher_crash_counterexample :
    handleRequest svcA false (mkReq "initialize" 1 (some .null)) =
      .error (.attributeError "object has no attribute \x27get\x27: protocolVersion") := rfl

/-- Witness for the amended C6 at a concrete benign request. -/
theorem dispatcher_total_and_well_formed_witness :
    ∃ (st' : Bool) (resp : Option Response),
      handleRequest svcA false (mkReq "tools/list" 30 none) = .ok (st', resp)
      ∧ (∀ r, resp = some r → r.id = (mkReq "tools/list" 30 none).id)
      ∧ (resp = none ↔
          (isStrVal (mkReq "tools/list" 30 none).jsonrpc "2.0" = true
           ∧ isMethod (mkReq "tools/list" 30 none) "notifications/initialized" = true)) :=
  dispatcher_total_and_well_formed svcA false _ (by trivial)

/-! ## Classifier lemmas (for C1 and C8) -/

theorem bool_not_true {b : Bool} (h : ¬(b = true)) : b = false := by
  cases hb : b
  · rfl
  · exact absurd hb h

/-- One classification step either skips a non-public or non-callable entry
unchanged, or extends exactly the table selected by the name-prefix priority
with the descriptor built from the entry. -/
theorem classifyStep_spec {acc acc' : Tables} {e : NsEntry}
    (h : classifyStep acc e = .ok acc') :
    (isPublicCallable e = false → acc' = acc)
    ∧ (isPublicCallable e = true →
        (categoryOf e.name = .resourceCat →
          ∃ kr, mkResource e.name e.fn = .ok kr
            ∧ acc' = { acc with resources := acc.resources ++ [kr] })
        ∧ (categoryOf e.name = .promptCat →
          ∃ kp, mkPrompt e.name e.fn = .ok kp
            ∧ acc' = { acc with prompts := acc.prompts ++ [kp] })
        ∧ (categoryOf e.name = .actionCat →
          ∃ t, mkTool e.name e.fn = .ok t
            ∧ acc' = { acc with tools := acc.tools ++ [(e.name, t)] })) := by
  rw [classifyStep] at h
  by_cases hg : (!e.isCallable || strStartsWith e.name "_") = true
  · rw [if_pos hg] at h
    injection h with h'
    subst h'
    constructor
    · intro _
      rfl
    · intro hpub
      exfalso
      simp only [isPublicCallable, Bool.and_eq_true, Bool.not_eq_true'] at hpub
      rw [hpub.1, hpub.2] at hg
      simp at hg
  · rw [if_neg hg] at h
    have hgf := bool_not_true hg
    have hcall : e.isCallable = true := by
      cases hx : e.isCallable
      · rw [hx] at hgf
        simp at hgf
      · rfl
    have hund : strStartsWith e.name "_" = false := by
      cases hx : strStartsWith e.name "_"
      · rfl
      · rw [hx] at hgf
        simp at hgf
    have hpub : isPublicCallable e = true := by
      simp [isPublicCallable, hcall, hund]
    refine ⟨fun hf => absurd hpub (by rw [hf]; exact fun hc => Bool.noConfusion hc), fun _ => ?_⟩
    by_cases hr : strStartsWith e.name "resource_" = true
    · rw [if_pos hr] at h
      cases hmk : mkResource e.name e.fn with
      | error er =>
        rw [hmk] at h
        exact Except.noConfusion h
      | ok kr =>
        rw [hmk] at h
        injection h with h'
        subst h'
        refine ⟨fun _ => ⟨kr, rfl, rfl⟩, fun hcat => ?_, fun hcat => ?_⟩
        · rw [categoryOf, if_pos hr] at hcat
          exact absurd hcat (by simp)
        · rw [categoryOf, if_pos hr] at hcat
          exact absurd hcat (by simp)
    · rw [if_neg hr] at h
      have hr' := bool_not_true hr
      by_cases hp : strStartsWith e.name "prompt_" = true
      · rw [if_pos hp] at h
        cases hmk : mkPrompt e.name e.fn with
        | error er =>
          rw [hmk] at h
          exact Except.noConfusion h
        | ok kp =>
          rw [hmk] at h
          injection h with h'
          subst h'
          refine ⟨fun hcat => ?_, fun _ => ⟨kp, rfl, rfl⟩, fun hcat => ?_⟩
          · rw [categoryOf, if_neg hr, if_pos hp] at hcat
            exact absurd hcat (by simp)
          · rw [categoryOf, if_neg hr, if_pos hp] at hcat
            exact absurd hcat (by simp)
      · rw [if_neg hp] at h
        have hp' := bool_not_true hp
        cases hmk : mkTool e.name e.fn with
        | error er =>
          rw [hmk] at h
          exact Except.noConfusion h
        | ok t =>
          rw [hmk] at h
          injection h with h'
          subst h'
          refine ⟨fun hcat => ?_, fun hcat => ?_, fun _ => ⟨t, rfl, rfl⟩⟩
          · rw [categoryOf, if_neg hr, if_neg hp] at hcat
            exact absurd hcat (by simp)
          · rw [categoryOf, if_neg hr, if_neg hp] at hcat
            exact absurd hcat (by simp)

theorem classifyAux_mono (ns : List NsEntry) :
    ∀ (acc T : Tables), classifyAux ns acc = .ok T →
      (∀ kt, kt ∈ acc.tools → kt ∈ T.tools)
      ∧ (∀ kr, kr ∈ acc.resources → kr ∈ T.resources)
      ∧ (∀ kp, kp ∈ acc.prompts → kp ∈ T.prompts) := by
  induction ns with
  | nil =>
    intro acc T h
    injection h with h'
    subst h'
    exact ⟨fun _ hk => hk, fun _ hk => hk, fun _ hk => hk⟩
  | cons e rest ih =>
    intro acc T h
    rw [classifyAux] at h
    cases hs : classifyStep acc e with
    | error er =>
      rw [hs] at h
      exact Except.noConfusion h
    | ok acc' =>
      rw [hs] at h
      obtain ⟨t1, r1, p1⟩ := ih acc' T h
      have hspec := classifyStep_spec hs
      cases hpub : isPublicCallable e with
      | false =>
        have heq := hspec.1 hpub
        subst heq
        exact ⟨t1, r1, p1⟩
      | true =>
        rcases hcat : categoryOf e.name with _ | _ | _
        · obtain ⟨kr, _, heq⟩ := (hspec.2 hpub).1 hcat
          subst heq
          exact ⟨fun kt hk => t1 kt hk,
                 fun kr2 hk => r1 kr2 (List.mem_append_left _ hk),
                 fun kp hk => p1 kp hk⟩
        · obtain ⟨kp, _, heq⟩ := (hspec.2 hpub).2.1 hcat
          subst heq
          exact ⟨fun kt hk => t1 kt hk,
                 fun kr hk => r1 kr hk,
                 fun kp2 hk => p1 kp2 (List.mem_append_left _ hk)⟩
        · obtain ⟨t, _, heq⟩ := (hspec.2 hpub).2.2 hcat
          subst heq
          exact ⟨fun kt hk => t1 kt (List.mem_append_left _ hk),
                 fun kr hk => r1 kr hk,
                 fun kp hk => p1 kp hk⟩

theorem classifyAux_total (ns : List NsEntry) :
    ∀ (acc T : Tables), classifyAux ns acc = .ok T →
      ∀ e ∈ ns, isPublicCallable e = true →
        (categoryOf e.name = .resourceCat →
          ∃ kr, mkResource e.name e.fn = .ok kr ∧ kr ∈ T.resources)
        ∧ (categoryOf e.name = .promptCat →
          ∃ kp, mkPrompt e.name e.fn = .ok kp ∧ kp ∈ T.prompts)
        ∧ (categoryOf e.name = .actionCat →
          ∃ t, mkTool e.name e.fn = .ok t ∧ (e.name, t) ∈ T.tools) := by
  induction ns with
  | nil =>
    intro acc T h e he
    exact absurd he (List.not_mem_nil e)
  | cons e0 rest ih =>
    intro acc T h e he hpub
    rw [classifyAux] at h
    cases hs : classifyStep acc e0 with
    | error er =>
      rw [hs] at h
      exact Except.noConfusion h
    | ok acc' =>
      rw [hs] at h
      rcases List.mem_cons.mp he with rfl | he'
      · have hspec := (classifyStep_spec hs).2 hpub
        obtain ⟨tmono, rmono, pmono⟩ := classifyAux_mono rest acc' T h
        refine ⟨fun hcat => ?_, fun hcat => ?_, fun hcat => ?_⟩
        · obtain ⟨kr, hmk, heq⟩ := hspec.1 hcat
          subst heq
          exact ⟨kr, hmk, rmono kr (List.mem_append_right _ (List.mem_singleton_self kr))⟩
        · obtain ⟨kp, hmk, heq⟩ := hspec.2.1 hcat
          subst heq
          exact ⟨kp, hmk, pmono kp (List.mem_append_right _ (List.mem_singleton_self kp))⟩
        · obtain ⟨t, hmk, heq⟩ := hspec.2.2 hcat
          subst heq
          exact ⟨t, hmk, tmono (e.name, t) (List.mem_append_right _ (List.mem_singleton_self _))⟩
      · exact ih acc' T h e he' hpub

theorem classifyAux_provenance (ns : List NsEntry) :
    ∀ (acc T : Tables), classifyAux ns acc = .ok T →
      (∀ kt ∈ T.tools, kt ∈ acc.tools
        ∨ ∃ e ∈ ns, isPublicCallable e = true ∧ categoryOf e.name = .actionCat
            ∧ kt.1 = e.name ∧ mkTool e.name e.fn = .ok kt.2)
      ∧ (∀ kr ∈ T.resources, kr ∈ acc.resources
        ∨ ∃ e ∈ ns, isPublicCallable e = true ∧ categoryOf e.name = .resourceCat
            ∧ mkResource e.name e.fn = .ok kr)
      ∧ (∀ kp ∈ T.prompts, kp ∈ acc.prompts
        ∨ ∃ e ∈ ns, isPublicCallable e = true ∧ categoryOf e.name = .promptCat
            ∧ mkPrompt e.name e.fn = .ok kp) := by
  induction ns with
  | nil =>
    intro acc T h
    injection h with h'
    subst h'
    exact ⟨fun kt hk => Or.inl hk, fun kr hk => Or.inl hk, fun kp hk => Or.inl hk⟩
  | cons e0 rest ih =>
    intro acc T h
    rw [classifyAux] at h
    cases hs : classifyStep acc e0 with
    | error er =>
      rw [hs] at h
      exact Except.noConfusion h
    | ok acc' =>
      rw [hs] at h
      obtain ⟨tprov, rprov, pprov⟩ := ih acc' T h
      have hspec := classifyStep_spec hs
      have hstep : (∀ kt ∈ acc'.tools, kt ∈ acc.tools
            ∨ (isPublicCallable e0 = true ∧ categoryOf e0.name = .actionCat
               ∧ kt.1 = e0.name ∧ mkTool e0.name e0.fn = .ok kt.2))
          ∧ (∀ kr ∈ acc'.resources, kr ∈ acc.resources
            ∨ (isPublicCallable e0 = true ∧ categoryOf e0.name = .resourceCat
               ∧ mkResource e0.name e0.fn = .ok kr))
          ∧ (∀ kp ∈ acc'.prompts, kp ∈ acc.prompts
            ∨ (isPublicCallable e0 = true ∧ categoryOf e0.name = .promptCat
               ∧ mkPrompt e0.name e0.fn = .ok kp)) := by
        cases hpub : isPublicCallable e0 with
        | false =>
          have heq := hspec.1 hpub
          subst heq
          exact ⟨fun kt hk => Or.inl hk, fun kr hk => Or.inl hk, fun kp hk => Or.inl hk⟩
        | true =>
          rcases hcat : categoryOf e0.name with _ | _ | _
          · obtain ⟨kr0, hmk, heq⟩ := (hspec.2 hpub).1 hcat
            subst heq
            refine ⟨fun kt hk => Or.inl hk, fun kr hk => ?_, fun kp hk => Or.inl hk⟩
            rcases List.mem_append.mp hk with hk' | hk'
            · exact Or.inl hk'
            · rw [List.mem_singleton.mp hk']
              exact Or.inr ⟨rfl, rfl, hmk⟩
          · obtain ⟨kp0, hmk, heq⟩ := (hspec.2 hpub).2.1 hcat
            subst heq
            refine ⟨fun kt hk => Or.inl hk, fun kr hk => Or.inl hk, fun kp hk => ?_⟩
            rcases List.mem_append.mp hk with hk' | hk'
            · exact Or.inl hk'
            · rw [List.mem_singleton.mp hk']
              exact Or.inr ⟨rfl, rfl, hmk⟩
          · obtain ⟨t0, hmk, heq⟩ := (hspec.2 hpub).2.2 hcat
            subst heq
            refine ⟨fun kt hk => ?_, fun kr hk => Or.inl hk, fun kp hk => Or.inl hk⟩
            rcases List.mem_append.mp hk with hk' | hk'
            · exact Or.inl hk'
            · rw [List.mem_singleton.mp hk']
              exact Or.inr ⟨rfl, rfl, rfl, hmk⟩
      refine ⟨fun kt hk => ?_, fun kr hk => ?_, fun kp hk => ?_⟩
      · rcases tprov kt hk with hk' | ⟨e, he, hrest⟩
        · rcases hstep.1 kt hk' with hk'' | ⟨h1, h2, h3, h4⟩
          · exact Or.inl hk''
          · exact Or.inr ⟨e0, List.mem_cons_self e0 rest, h1, h2, h3, h4⟩
        · exact Or.inr ⟨e, List.mem_cons_of_mem e0 he, hrest⟩
      · rcases rprov kr hk with hk' | ⟨e, he, hrest⟩
        · rcases hstep.2.1 kr hk' with hk'' | ⟨h1, h2, h3⟩
          · exact Or.inl hk''
          · exact Or.inr ⟨e0, List.mem_cons_self e0 rest, h1, h2, h3⟩
        · exact Or.inr ⟨e, List.mem_cons_of_mem e0 he, hrest⟩
      · rcases pprov kp hk with hk' | ⟨e, he, hrest⟩
        · rcases hstep.2.2 kp hk' with hk'' | ⟨h1, h2, h3⟩
          · exact Or.inl hk''
          · exact Or.inr ⟨e0, List.mem_cons_self e0 rest, h1, h2, h3⟩
        · exact Or.inr ⟨e, List.mem_cons_of_mem e0 he, hrest⟩

/-! ## Claim C1 — classification is exhaustive and mutually exclusive -/

/-- C1: when `McpMeta.__new__` succeeds, every public callable namespace
entry lands in the descriptor mapping selected by name-prefix priority
(resource-prefix, then prompt-prefix, else action), each mapping contains
only descriptors originating from entries of its own category — so no public
callable is absent from all three mappings or present in two — and the
category function is exactly the prefix-priority chain. -/
theorem classification_exhaustive_and_exclusive (ns : List NsEntry) (T : Tables)
    (hok : classify ns = .ok T) :
    (∀ e ∈ ns, isPublicCallable e = true →
      (categoryOf e.name = .resourceCat →
        ∃ kr, mkResource e.name e.fn = .ok kr ∧ kr ∈ T.resources)
      ∧ (categoryOf e.name = .promptCat →
        ∃ kp, mkPrompt e.name e.fn = .ok kp ∧ kp ∈ T.prompts)
      ∧ (categoryOf e.name = .actionCat →
        ∃ t, mkTool e.name e.fn = .ok t ∧ (e.name, t) ∈ T.tools))
    ∧ (∀ kt ∈ T.tools, ∃ e ∈ ns, isPublicCallable e = true
        ∧ categoryOf e.name = .actionCat ∧ kt.1 = e.name
        ∧ mkTool e.name e.fn = .ok kt.2)
    ∧ (∀ kr ∈ T.resources, ∃ e ∈ ns, isPublicCallable e = true
        ∧ categoryOf e.name = .resourceCat ∧ mkResource e.name e.fn = .ok kr)
    ∧ (∀ kp ∈ T.prompts, ∃ e ∈ ns, isPublicCallable e = true
        ∧ categoryOf e.name = .promptCat ∧ mkPrompt e.name e.fn = .ok kp)
    ∧ (∀ a : String, categoryOf a = .resourceCat ↔ strStartsWith a "resource_" = true)
    ∧ (∀ a : String, categoryOf a = .promptCat ↔
        (strStartsWith a "resource_" = false ∧ strStartsWith a "prompt_" = true))
    ∧ (∀ a : String, categoryOf a = .actionCat ↔
        (strStartsWith a "resource_" = false ∧ strStartsWith a "prompt_" = false)) := by
  rw [classify] at hok
  obtain ⟨tprov, rprov, pprov⟩ := classifyAux_provenance ns _ T hok
  refine ⟨fun e he hpub => classifyAux_total ns _ T hok e he hpub,
          fun kt hk => ?_, fun kr hk => ?_, fun kp hk => ?_, ?_, ?_, ?_⟩
  · rcases tprov kt hk with hk' | hsrc
    · exact absurd hk' (List.not_mem_nil kt)
    · exact hsrc
  · rcases rprov kr hk with hk' | hsrc
    · exact absurd hk' (List.not_mem_nil kr)
    · exact hsrc
  · rcases pprov kp hk with hk' | hsrc
    · exact absurd hk' (List.not_mem_nil kp)
    · exact hsrc
  · intro a
    rw [categoryOf]
    by_cases hr : strStartsWith a "resource_" = true
    · simp [hr]
    · have hr' := bool_not_true hr
      by_cases hp : strStartsWith a "prompt_" = true <;> simp [hr', hp]
  · intro a
    rw [categoryOf]
    by_cases hr : strStartsWith a "resource_" = true
    · simp [hr]
    · have hr' := bool_not_true hr
      by_cases hp : strStartsWith a "prompt_" = true <;> simp [hr', hp]
  · intro a
    rw [categoryOf]
    by_cases hr : strStartsWith a "resource_" = true
    · simp [hr]
    · have hr' := bool_not_true hr
      by_cases hp : strStartsWith a "prompt_" = true <;> simp [hr', hp]

/-- Witness for C1: the mixed concrete namespace classifies with its action,
resource and prompt each present in exactly the expected mapping. -/
theorem classification_exhaustive_and_exclusive_witness :
    classify nsA = .ok tablesA
    ∧ (∃ t, mkTool "add" addFn = .ok t ∧ ("add", t) ∈ tablesA.tools)
    ∧ (∃ kr, mkResource "resource_doc" boomResFn = .ok kr ∧ kr ∈ tablesA.resources)
    ∧ (∃ kp, mkPrompt "prompt_greet" boomPromptFn = .ok kp ∧ kp ∈ tablesA.prompts) :=
  ⟨rfl,
   ((classification_exhaustive_and_exclusive nsA tablesA rfl).1
      ⟨"add", true, addFn⟩ (List.mem_cons_self _ _) rfl).2.2 rfl,
   ((classification_exhaustive_and_exclusive nsA tablesA rfl).1
      ⟨"resource_doc", true, boomResFn⟩
      (List.mem_cons_of_mem _ (List.mem_cons_self _ _)) rfl).1 rfl,
   ((classification_exhaustive_and_exclusive nsA tablesA rfl).1
      ⟨"prompt_greet", true, boomPromptFn⟩
      (List.mem_cons_of_mem _ (List.mem_cons_of_mem _ (List.mem_cons_self _ _))) rfl).2.1 rfl⟩

/-! ## Claim C8 — unresolvable annotations and classification -/

theorem mkTool_ok (attr : String) (fn : PyFn) (hints : List (String × PyType))
    (d : Option String)
    (hh : fn.hints = .ok hints) (hd : docSummary fn.doc = .ok d) :
    ∃ t, mkTool attr fn = .ok t := by
  simp only [mkTool, buildParamModel, buildResultModel, hh, hd]
  exact ⟨_, rfl⟩

theorem mkResource_ok (attr : String) (fn : PyFn) (hints : List (String × PyType))
    (d : Option String)
    (hh : fn.hints = .ok hints) (hd : docSummary fn.doc = .ok d) :
    ∃ kr, mkResource attr fn = .ok kr := by
  simp only [mkResource, hh, hd]
  exact ⟨_, rfl⟩

theorem mkPrompt_ok (attr : String) (fn : PyFn) (d : Option String)
    (hd : docSummary fn.doc = .ok d) :
    ∃ kp, mkPrompt attr fn = .ok kp := by
  simp only [mkPrompt, hd]
  exact ⟨_, rfl⟩

theorem classifyAux_ok_of (ns : List NsEntry) :
    ∀ acc : Tables,
    (∀ e ∈ ns, isPublicCallable e = true → categoryOf e.name ≠ .promptCat →
      ∃ hints, e.fn.hints = .ok hints) →
    (∀ e ∈ ns, isPublicCallable e = true → ∃ d, docSummary e.fn.doc = .ok d) →
    ∃ T, classifyAux ns acc = .ok T := by
  induction ns with
  | nil =>
    intro acc _ _
    exact ⟨acc, rfl⟩
  | cons e rest ih =>
    intro acc hres hdoc
    have hstep : ∃ acc', classifyStep acc e = .ok acc' := by
      rw [classifyStep]
      by_cases hg : (!e.isCallable || strStartsWith e.name "_") = true
      · rw [if_pos hg]
        exact ⟨acc, rfl⟩
      · rw [if_neg hg]
        have hgf := bool_not_true hg
        have hcall : e.isCallable = true := by
          cases hx : e.isCallable
          · rw [hx] at hgf
            simp at hgf
          · rfl
        have hund : strStartsWith e.name "_" = false := by
          cases hx : strStartsWith e.name "_"
          · rfl
          · rw [hx] at hgf
            simp at hgf
        have hpub : isPublicCallable e = true := by
          simp [isPublicCallable, hcall, hund]
        obtain ⟨d, hd⟩ := hdoc e (List.mem_cons_self e rest) hpub
        by_cases hr : strStartsWith e.name "resource_" = true
        · rw [if_pos hr]
          have hcat : categoryOf e.name ≠ .promptCat := by
            rw [categoryOf, if_pos hr]
            simp
          obtain ⟨hints, hh⟩ := hres e (List.mem_cons_self e rest) hpub hcat
          obtain ⟨kr, hkr⟩ := mkResource_ok e.name e.fn hints d hh hd
          rw [hkr]
          exact ⟨_, rfl⟩
        · rw [if_neg hr]
          have hr' := bool_not_true hr
          by_cases hp : strStartsWith e.name "prompt_" = true
          · rw [if_pos hp]
            obtain ⟨kp, hkp⟩ := mkPrompt_ok e.name e.fn d hd
            rw [hkp]
            exact ⟨_, rfl⟩
          · rw [if_neg hp]
            have hp' := bool_not_true hp
            have hcat : categoryOf e.name ≠ .promptCat := by
              rw [categoryOf, if_neg hr, if_neg hp]
              simp
            obtain ⟨hints, hh⟩ := hres e (List.mem_cons_self e rest) hpub hcat
            obtain ⟨t, ht⟩ := mkTool_ok e.name e.fn hints d hh hd
            rw [ht]
            exact ⟨_, rfl⟩
    obtain ⟨acc', hacc'⟩ := hstep
    rw [classifyAux, hacc']
    exact ih acc'
      (fun e2 he2 => hres e2 (List.mem_cons_of_mem e he2))
      (fun e2 he2 => hdoc e2 (List.mem_cons_of_mem e he2))

/-- C8 (amended): classification does NOT survive unresolvable annotations —
a public tool- or resource-category callable whose `get_type_hints` raises
`NameError` crashes class creation (see the counterexample).  What does hold:
prompt-category callables never trigger hint resolution, so when every
public non-prompt callable's hints resolve (and docstrings are summarisable)
classification succeeds with every public callable present in its mapping;
and a parameter *missing* an annotation is treated as any-type rather than
excluding the method. -/
theorem classification_hint_resolution (ns : List NsEntry)
    (hres : ∀ e ∈ ns, isPublicCallable e = true → categoryOf e.name ≠ .promptCat →
      ∃ hints, e.fn.hints = .ok hints)
    (hdoc : ∀ e ∈ ns, isPublicCallable e = true →
      ∃ d, docSummary e.fn.doc = .ok d) :
    (∃ T, classify ns = .ok T
      ∧ ∀ e ∈ ns, isPublicCallable e = true →
          (categoryOf e.name = .resourceCat →
            ∃ kr, mkResource e.name e.fn = .ok kr ∧ kr ∈ T.resources)
          ∧ (categoryOf e.name = .promptCat →
            ∃ kp, mkPrompt e.name e.fn = .ok kp ∧ kp ∈ T.prompts)
          ∧ (categoryOf e.name = .actionCat →
            ∃ t, mkTool e.name e.fn = .ok t ∧ (e.name, t) ∈ T.tools))
    ∧ (∀ (fn : PyFn) (hints : List (String × PyType)) (p : SigParam),
        fn.hints = .ok hints → p ∈ fn.params → p.name ≠ "self" →
        lookupType hints p.name = none →
        ∃ fields, buildParamModel fn = .ok (some fields)
          ∧ (⟨p.name, .any, p.default⟩ : PField) ∈ fields) := by
  constructor
  · obtain ⟨T, hT⟩ := classifyAux_ok_of ns
      { tools := [], resources := [], prompts := [] } hres hdoc
    refine ⟨T, hT, fun e he hpub => classifyAux_total ns _ T hT e he hpub⟩
  · intro fn hints p hh hp hself hlk
    have hmem : p ∈ fn.params.filter fun q => q.name != "self" := by
      rw [List.mem_filter]
      exact ⟨hp, by simpa using hself⟩
    have hfmem : (⟨p.name, .any, p.default⟩ : PField) ∈
        (fn.params.filter fun q => q.name != "self").map fun q =>
          ({ name := q.name, type := (lookupType hints q.name).getD .any,
             default := q.default } : PField) := by
      refine List.mem_map.mpr ⟨p, hmem, ?_⟩
      rw [hlk]
      rfl
    refine ⟨_, ?_, hfmem⟩
    have hne : ((fn.params.filter fun q => q.name != "self").map fun q =>
        ({ name := q.name, type := (lookupType hints q.name).getD .any,
           default := q.default } : PField)).isEmpty = false := by
      cases hl : (fn.params.filter fun q => q.name != "self").map fun q =>
          ({ name := q.name, type := (lookupType hints q.name).getD .any,
             default := q.default } : PField)
      · rw [hl] at hfmem
        exact absurd hfmem (List.not_mem_nil _)
      · rfl
    simp only [buildParamModel, hh]
    rw [hne]
    rfl

/-- Counterexample to C8 as stated: a single public method with an
unresolvable annotation makes `McpMeta.__new__` raise `NameError` — the
class definition crashes instead of degrading to any-type. -/
theorem classification_hint_crash_counterexample :
    classify [{ name := "greet", isCallable := true, fn := badFn }] =
      .error (.nameError "name \x27Widget\x27 is not defined") := rfl

/-- Witness for the amended C8 on the concrete namespace, plus the
missing-annotation-becomes-any-type fact for a concrete unannotated
parameter. -/
theorem classification_hint_resolution_witness :
    (∃ T, classify nsA = .ok T
      ∧ ∀ e ∈ nsA, isPublicCallable e = true →
          (categoryOf e.name = .resourceCat →
            ∃ kr, mkResource e.name e.fn = .ok kr ∧ kr ∈ T.resources)
          ∧ (categoryOf e.name = .promptCat →
            ∃ kp, mkPrompt e.name e.fn = .ok kp ∧ kp ∈ T.prompts)
          ∧ (categoryOf e.name = .actionCat →
            ∃ t, mkTool e.name e.fn = .ok t ∧ (e.name, t) ∈ T.tools))
    ∧ (∃ fields, buildParamModel noHintFn = .ok (some fields)
        ∧ (⟨"x", PyType.any, none⟩ : PField) ∈ fields) :=
  ⟨(classification_hint_resolution nsA
      (by
        intro e he hpub hcat
        fin_cases he <;> exact ⟨_, rfl⟩)
      (by
        intro e he hpub
        fin_cases he <;> exact ⟨_, rfl⟩)).1,
   (classification_hint_resolution [] (by intro e he; exact absurd he (List.not_mem_nil e))
      (by intro e he; exact absurd he (List.not_mem_nil e))).2
     noHintFn [] ⟨"x", none⟩ rfl
     (List.mem_cons_of_mem _ (List.mem_cons_self _ _)) (by decide) rfl⟩

end PyMCP
